import Mathlib

/-!
Verification development for the AWS architecture-diagram compiler.

The TypeScript sources are shallowly embedded here:
* `types.ts` data model (components, connections, terraform resources),
* `iamPolicyMapping.ts` (the static policy-requirement table and its lookup),
* `iamPolicyGenerator.ts` (execution roles, resource-based policies and
  consolidated execution-role policies),
* `TerraformCodePanel.tsx` (name sanitisation, per-component resource
  generation, trigger wiring and the HCL text formatter),
* the two `handleConnectionCreate` edge-creation handlers (the live
  `App.tsx` variant and the port-parameterised variant).

JavaScript strings are modelled as Lean `String`s; `Record<string, any>`
values as the inductive `Value`; `Set`/`Map` insertion-order semantics as
lists with membership-guarded append.  `String.prototype.toLowerCase` is
modelled by the ASCII case map (all inputs exercised by the program are
ASCII).
-/

namespace Arch


/-- A JSON-like dynamic value, modelling TypeScript `any` property maps. -/
inductive Value where
  | str : String → Value
  | num : Int → Value
  | bool : Bool → Value
  | null : Value
  | arr : List Value → Value
  | obj : List (String × Value) → Value
deriving Repr, BEq, Inhabited

/-- ASCII lower-casing of one character, the case map JavaScript applies on
the ASCII range. -/
def asciiLower (c : Char) : Char :=
  if ('A' ≤ c ∧ c ≤ 'Z') then Char.ofNat (c.toNat + 32) else c

/-- Model of `String.prototype.toLowerCase`. -/
def jsToLower (s : String) : String :=
  ⟨s.data.map asciiLower⟩

/-- Characters kept by the sanitiser: `[a-z0-9]`. -/
def isLowerAlnum (c : Char) : Bool :=
  ('a' ≤ c ∧ c ≤ 'z') ∨ ('0' ≤ c ∧ c ≤ '9')

/-- `replace(/[^a-z0-9]/g, '_')`. -/
def replaceBad (l : List Char) : List Char :=
  l.map (fun c => if isLowerAlnum c then c else '_')

/-- `replace(/_+/g, '_')`: collapse every run of underscores to one
(whenever two adjacent underscores occur, drop the first). -/
def collapseUnderscores : List Char → List Char
  | [] => []
  | [c] => [c]
  | c :: d :: rest =>
      if c = '_' ∧ d = '_' then collapseUnderscores (d :: rest)
      else c :: collapseUnderscores (d :: rest)

/-- Drop one leading underscore, if present. -/
def dropOneLead (l : List Char) : List Char :=
  match l with
  | [] => []
  | c :: rest => if c = '_' then rest else c :: rest

/-- `replace(/^_|_$/g, '')`: the regex removes one leading underscore and
one trailing underscore. -/
def stripEdgeUnderscores (l : List Char) : List Char :=
  let l1 := dropOneLead l
  match l1.reverse with
  | [] => l1
  | c :: rest => if c = '_' then rest.reverse else l1

/-- `sanitizeName` from `TerraformCodePanel.tsx`:
`name.toLowerCase().replace(/[^a-z0-9]/g, '_').replace(/_+/g, '_').replace(/^_|_$/g, '')`. -/
def sanitizeName (name : String) : String :=
  ⟨stripEdgeUnderscores (collapseUnderscores (replaceBad (name.data.map asciiLower)))⟩

/-- Whitespace characters recognised by the `/\s+/g` regexes used on
component kind strings (the kinds only ever contain plain spaces). -/
def isJsSpace (c : Char) : Bool :=
  c = ' ' ∨ c = '\t' ∨ c = '\n' ∨ c = '\r'

/-- `replace(/\s+/g, '_')`: collapse each whitespace run to one underscore
(whenever two adjacent whitespace characters occur, drop the first; each
remaining whitespace character becomes an underscore). -/
def collapseSpacesToUnderscore : List Char → List Char
  | [] => []
  | [c] => [if isJsSpace c then '_' else c]
  | c :: d :: rest =>
      if isJsSpace c ∧ isJsSpace d then collapseSpacesToUnderscore (d :: rest)
      else (if isJsSpace c then '_' else c) :: collapseSpacesToUnderscore (d :: rest)

/-- `kind.toLowerCase().replace(/\s+/g, '_')`, the fallback naming idiom. -/
def lowerUnderscore (s : String) : String :=
  ⟨collapseSpacesToUnderscore ((jsToLower s).data)⟩

/-- Substitute `t` for the first `'*'` of the list, if any. -/
def replaceFirstStarAux (t : List Char) : List Char → List Char
  | [] => []
  | c :: rest => if c = '*' then t ++ rest else c :: replaceFirstStarAux t rest

/-- `s.replace('*', t)`: JavaScript string-pattern replace substitutes only
the first occurrence. -/
def replaceFirstStar (s t : String) : String :=
  ⟨replaceFirstStarAux t.data s.data⟩

/-- Replace every dash with an underscore (the global dash-to-underscore
regex replace used on RDS database names). -/
def dashesToUnderscores (s : String) : String :=
  ⟨s.data.map (fun c => if c = '-' then '_' else c)⟩

/-- `s.replace(/"/g, '\\"')`. -/
def escapeQuotes (s : String) : String :=
  ⟨s.data.flatMap (fun c => if c = '"' then ['\\', '"'] else [c])⟩

/-- `list.join(sep)`. -/
def joinSep (sep : String) (l : List String) : String :=
  match l with
  | [] => ""
  | x :: xs => xs.foldl (fun acc y => acc ++ sep ++ y) x

/-- `[...new Set(l)]`: deduplicate keeping first occurrences, in order. -/
def dedupFirst (l : List String) : List String :=
  l.foldl (fun acc x => if x ∈ acc then acc else acc ++ [x]) []

/-- JSON string escaping as performed by `JSON.stringify` (the strings the
program serialises contain no control characters). -/
def jsonEscape (s : String) : String :=
  ⟨s.data.flatMap (fun c =>
    if c = '"' then ['\\', '"']
    else if c = '\\' then ['\\', '\\']
    else if c = '\n' then ['\\', 'n']
    else [c])⟩

/-- `n` spaces. -/
def spaces (n : Nat) : String :=
  ⟨List.replicate n ' '⟩

mutual

/-- `JSON.stringify(v, null, 2)` at nesting indentation `ind`. -/
def jsonStringify2 : Value → Nat → String
  | .str s, _ => "\"" ++ jsonEscape s ++ "\""
  | .num n, _ => toString n
  | .bool b, _ => if b then "true" else "false"
  | .null, _ => "null"
  | .arr [], _ => "[]"
  | .arr (x :: xs), ind =>
      "[\n" ++ jsonStringify2List (x :: xs) (ind + 2) ++ "\n" ++ spaces ind ++ "]"
  | .obj [], _ => "\x7b\x7d"
  | .obj (kv :: kvs), ind =>
      "\x7b\n" ++ jsonStringify2Obj (kv :: kvs) (ind + 2) ++ "\n" ++ spaces ind ++ "\x7d"

def jsonStringify2List : List Value → Nat → String
  | [], _ => ""
  | [v], ind => spaces ind ++ jsonStringify2 v ind
  | v :: w :: rest, ind =>
      spaces ind ++ jsonStringify2 v ind ++ ",\n" ++ jsonStringify2List (w :: rest) ind

def jsonStringify2Obj : List (String × Value) → Nat → String
  | [], _ => ""
  | [(k, v)], ind => spaces ind ++ "\"" ++ jsonEscape k ++ "\": " ++ jsonStringify2 v ind
  | (k, v) :: kv :: rest, ind =>
      spaces ind ++ "\"" ++ jsonEscape k ++ "\": " ++ jsonStringify2 v ind ++ ",\n" ++
        jsonStringify2Obj (kv :: rest) ind

end

mutual

/-- `JSON.stringify(v)` without indentation. -/
def jsonStringifyC : Value → String
  | .str s => "\"" ++ jsonEscape s ++ "\""
  | .num n => toString n
  | .bool b => if b then "true" else "false"
  | .null => "null"
  | .arr xs => "[" ++ jsonStringifyCList xs ++ "]"
  | .obj kvs => "\x7b" ++ jsonStringifyCObj kvs ++ "\x7d"

def jsonStringifyCList : List Value → String
  | [] => ""
  | [v] => jsonStringifyC v
  | v :: w :: rest => jsonStringifyC v ++ "," ++ jsonStringifyCList (w :: rest)

def jsonStringifyCObj : List (String × Value) → String
  | [] => ""
  | [(k, v)] => "\"" ++ jsonEscape k ++ "\":" ++ jsonStringifyC v
  | (k, v) :: kv :: rest =>
      "\"" ++ jsonEscape k ++ "\":" ++ jsonStringifyC v ++ "," ++
        jsonStringifyCObj (kv :: rest)

end

/-! ## Data model (`types.ts`) -/

/-- `AWSComponent`: the diagram node.  The `position` field is irrelevant to
the compiler and omitted; all other fields follow the source. -/
structure AWSComponent where
  id : String
  type : String
  properties : List (String × Value)
deriving Repr, Inhabited

/-- `Connection`: the diagram edge.  `from` is a Lean keyword, hence the
trailing underscores on both endpoint fields. -/
structure Connection where
  from_ : String
  to_ : String
  type : String
  direction : String
  fromPort : String
  toPort : String
deriving Repr, Inhabited

/-- `TerraformResource`. -/
structure TerraformResource where
  type : String
  name : String
  properties : List (String × Value)
deriving Repr, Inhabited

/-- `TerraformConfiguration`. -/
structure TerraformConfiguration where
  provider : String
  resources : List TerraformResource
  vars : List (String × Value)
  outputs : List (String × Value)
deriving Repr, Inhabited

/-- First-match association-list lookup, the object property access. -/
def getProp (props : List (String × Value)) (key : String) : Option Value :=
  (props.find? (fun kv => kv.1 = key)).map (·.2)

/-- The idiom `component.properties.name || fallback`: a missing `name`
property and the empty string are both falsy. -/
def propNameOr (props : List (String × Value)) (fallback : String) : String :=
  match getProp props "name" with
  | some (.str s) => if s = "" then fallback else s
  | _ => fallback

/-- The idiom `component.properties.key || fallback` for string-valued
properties. -/
def propStrOr (props : List (String × Value)) (key fallback : String) : String :=
  match getProp props key with
  | some (.str s) => if s = "" then fallback else s
  | _ => fallback

/-- The idiom `component.properties.key || fallback` for number-valued
properties (`0` is falsy). -/
def propNumOr (props : List (String × Value)) (key : String) (fallback : Int) : Int :=
  match getProp props key with
  | some (.num n) => if n = 0 then fallback else n
  | _ => fallback

/-- `components.find(c => c.id === i)`. -/
def findComp (components : List AWSComponent) (i : String) : Option AWSComponent :=
  components.find? (fun c => c.id = i)

/-! ## `iamPolicyMapping.ts` -/

/-- `IAMPolicyRequirement` (the optional `conditions` field is never set by
any entry of the static table and is omitted). -/
structure IAMPolicyRequirement where
  policyType : String
  sourceService : String
  targetService : String
  actions : List String
  resources : List String
  description : String
deriving Repr, Inhabited, DecidableEq

/-- `IAM_POLICY_REQUIREMENTS`: the static requirement table, in source
order. -/
def IAM_POLICY_REQUIREMENTS : List IAMPolicyRequirement :=
  [ { policyType := "resource-based", sourceService := "S3", targetService := "Lambda",
      actions := ["lambda:InvokeFunction"],
      resources := ["arn:aws:lambda:*:*:function:*"],
      description := "Allow S3 to invoke Lambda function" },
    { policyType := "execution-role", sourceService := "Lambda", targetService := "S3",
      actions := ["s3:GetObject", "s3:PutObject", "s3:DeleteObject", "s3:ListBucket"],
      resources := ["arn:aws:s3:::bucket-name", "arn:aws:s3:::bucket-name/*"],
      description := "Allow Lambda to access S3 bucket" },
    { policyType := "resource-based", sourceService := "API Gateway", targetService := "Lambda",
      actions := ["lambda:InvokeFunction"],
      resources := ["arn:aws:lambda:*:*:function:*"],
      description := "Allow API Gateway to invoke Lambda function" },
    { policyType := "execution-role", sourceService := "Lambda", targetService := "DynamoDB",
      actions := ["dynamodb:GetItem", "dynamodb:PutItem", "dynamodb:UpdateItem",
        "dynamodb:DeleteItem", "dynamodb:Query", "dynamodb:Scan"],
      resources := ["arn:aws:dynamodb:*:*:table/*"],
      description := "Allow Lambda to access DynamoDB table" },
    { policyType := "execution-role", sourceService := "Lambda", targetService := "RDS",
      actions := ["rds-db:connect"],
      resources := ["arn:aws:rds-db:*:*:dbuser:*/lambda-user"],
      description := "Allow Lambda to connect to RDS database" },
    { policyType := "resource-based", sourceService := "SNS", targetService := "Lambda",
      actions := ["lambda:InvokeFunction"],
      resources := ["arn:aws:lambda:*:*:function:*"],
      description := "Allow SNS to invoke Lambda function" },
    { policyType := "execution-role", sourceService := "Lambda", targetService := "SNS",
      actions := ["sns:Publish"],
      resources := ["arn:aws:sns:*:*:*"],
      description := "Allow Lambda to publish to SNS topic" },
    { policyType := "resource-based", sourceService := "SQS", targetService := "Lambda",
      actions := ["lambda:InvokeFunction"],
      resources := ["arn:aws:lambda:*:*:function:*"],
      description := "Allow SQS to invoke Lambda function" },
    { policyType := "execution-role", sourceService := "Lambda", targetService := "SQS",
      actions := ["sqs:SendMessage", "sqs:ReceiveMessage", "sqs:DeleteMessage"],
      resources := ["arn:aws:sqs:*:*:*"],
      description := "Allow Lambda to access SQS queue" },
    { policyType := "resource-based", sourceService := "CloudWatch Events", targetService := "Lambda",
      actions := ["lambda:InvokeFunction"],
      resources := ["arn:aws:lambda:*:*:function:*"],
      description := "Allow CloudWatch Events to invoke Lambda function" },
    { policyType := "execution-role", sourceService := "Lambda", targetService := "CloudWatch",
      actions := ["logs:CreateLogGroup", "logs:CreateLogStream", "logs:PutLogEvents"],
      resources := ["arn:aws:logs:*:*:*"],
      description := "Allow Lambda to write to CloudWatch Logs" } ]

/-- `getIAMPolicyRequirements`: the lookup filters on source and target
service only; the connection-type argument is declared but unused in the
source (`_connectionType`). -/
def getIAMPolicyRequirements (sourceService targetService : String)
    (_connectionType : String) : List IAMPolicyRequirement :=
  IAM_POLICY_REQUIREMENTS.filter (fun req =>
    req.sourceService = sourceService ∧ req.targetService = targetService)

/-! ## `iamPolicyGenerator.ts` -/

/-- `GeneratedIAMPolicy`. -/
structure GeneratedIAMPolicy where
  type : String
  name : String
  properties : List (String × Value)
  description : String
deriving Repr, Inhabited

/-- `getServicePrincipal`. -/
def getServicePrincipal (serviceType : String) : String :=
  if serviceType = "Lambda" then "lambda.amazonaws.com"
  else if serviceType = "EC2" then "ec2.amazonaws.com"
  else if serviceType = "ECS" then "ecs-tasks.amazonaws.com"
  else if serviceType = "EKS" then "eks.amazonaws.com"
  else if serviceType = "API Gateway" then "apigateway.amazonaws.com"
  else if serviceType = "S3" then "s3.amazonaws.com"
  else if serviceType = "SNS" then "sns.amazonaws.com"
  else if serviceType = "SQS" then "sqs.amazonaws.com"
  else if serviceType = "CloudWatch" then "events.amazonaws.com"
  else jsToLower serviceType ++ ".amazonaws.com"

/-- `generateAssumeRolePolicy`: compact `JSON.stringify` of the trust
policy. -/
def generateAssumeRolePolicy (serviceType : String) : String :=
  jsonStringifyC (.obj
    [ ("Version", .str "2012-10-17"),
      ("Statement", .arr
        [ .obj
            [ ("Action", .str "sts:AssumeRole"),
              ("Effect", .str "Allow"),
              ("Principal", .obj [("Service", .str (getServicePrincipal serviceType))]) ] ]) ])

/-- One step of the `servicesNeedingRoles` set construction: for each
connection with both endpoints resolved, every matched requirement of
category `execution-role` or `both` marks the source kind. -/
def rolesNeededStep (components : List AWSComponent) (acc : List String)
    (connection : Connection) : List String :=
  match findComp components connection.from_, findComp components connection.to_ with
  | some fromComponent, some toComponent =>
      (getIAMPolicyRequirements fromComponent.type toComponent.type connection.type).foldl
        (fun acc req =>
          if req.policyType = "execution-role" ∨ req.policyType = "both" then
            if fromComponent.type ∈ acc then acc else acc ++ [fromComponent.type]
          else acc)
        acc
  | _, _ => acc

/-- The `aws_iam_role` record emitted for one service kind. -/
def executionRoleRecord (serviceType : String) : GeneratedIAMPolicy :=
  { type := "aws_iam_role",
    name := jsToLower serviceType ++ "_execution_role",
    properties :=
      [ ("name", .str (jsToLower serviceType ++ "-execution-role")),
        ("assume_role_policy", .str (generateAssumeRolePolicy serviceType)),
        ("tags", .obj
          [ ("Name", .str (serviceType ++ " Execution Role")),
            ("Service", .str serviceType) ]) ],
    description := "Execution role for " ++ serviceType ++ " service" }

/-- `generateExecutionRoles`: returns the emitted role records and the
updated `existingRoles` dedup ledger. -/
def generateExecutionRoles (components : List AWSComponent)
    (connections : List Connection) (existingRoles : List String) :
    List GeneratedIAMPolicy × List String :=
  let servicesNeedingRoles := connections.foldl (rolesNeededStep components) []
  servicesNeedingRoles.foldl
    (fun (acc : List GeneratedIAMPolicy × List String) serviceType =>
      let roleName := jsToLower serviceType ++ "_execution_role"
      if roleName ∈ acc.2 then acc
      else (acc.1 ++ [executionRoleRecord serviceType], acc.2 ++ [roleName]))
    ([], existingRoles)

/-- `generateResourceBasedPolicy`: the four `Lambda`-target cases; every
other combination yields nothing.  The requirement and connection
arguments are unused in the source (`_requirement`, `_connection`). -/
def generateResourceBasedPolicy (_requirement : IAMPolicyRequirement)
    (sourceComponent targetComponent : AWSComponent) (_connection : Connection) :
    Option GeneratedIAMPolicy :=
  let sourceName := propNameOr sourceComponent.properties (lowerUnderscore sourceComponent.type)
  let targetName := propNameOr targetComponent.properties (lowerUnderscore targetComponent.type)
  if targetComponent.type = "Lambda" ∧ sourceComponent.type = "S3" then
    some
      { type := "aws_lambda_permission",
        name := targetName ++ "_" ++ sourceName ++ "_permission",
        properties :=
          [ ("statement_id", .str ("AllowExecutionFrom" ++ sourceComponent.type)),
            ("action", .str "lambda:InvokeFunction"),
            ("function_name", .str ("$\x7baws_lambda_function." ++ targetName ++ ".function_name\x7d")),
            ("principal", .str (jsToLower sourceComponent.type ++ ".amazonaws.com")),
            ("source_arn", .str ("$\x7baws_" ++ jsToLower sourceComponent.type ++ "." ++ sourceName ++ ".arn\x7d")) ],
        description := "Allow " ++ sourceComponent.type ++ " to invoke " ++ targetComponent.type }
  else if targetComponent.type = "Lambda" ∧ sourceComponent.type = "API Gateway" then
    some
      { type := "aws_lambda_permission",
        name := targetName ++ "_" ++ sourceName ++ "_permission",
        properties :=
          [ ("statement_id", .str ("AllowExecutionFrom" ++ sourceComponent.type)),
            ("action", .str "lambda:InvokeFunction"),
            ("function_name", .str ("$\x7baws_lambda_function." ++ targetName ++ ".function_name\x7d")),
            ("principal", .str "apigateway.amazonaws.com"),
            ("source_arn", .str ("$\x7baws_api_gateway_rest_api." ++ sourceName ++ ".execution_arn\x7d/*/*")) ],
        description := "Allow " ++ sourceComponent.type ++ " to invoke " ++ targetComponent.type }
  else if targetComponent.type = "Lambda" ∧ sourceComponent.type = "SNS" then
    some
      { type := "aws_lambda_permission",
        name := targetName ++ "_" ++ sourceName ++ "_permission",
        properties :=
          [ ("statement_id", .str ("AllowExecutionFrom" ++ sourceComponent.type)),
            ("action", .str "lambda:InvokeFunction"),
            ("function_name", .str ("$\x7baws_lambda_function." ++ targetName ++ ".function_name\x7d")),
            ("principal", .str "sns.amazonaws.com"),
            ("source_arn", .str ("$\x7baws_sns_topic." ++ sourceName ++ ".arn\x7d")) ],
        description := "Allow " ++ sourceComponent.type ++ " to invoke " ++ targetComponent.type }
  else if targetComponent.type = "Lambda" ∧ sourceComponent.type = "SQS" then
    some
      { type := "aws_lambda_permission",
        name := targetName ++ "_" ++ sourceName ++ "_permission",
        properties :=
          [ ("statement_id", .str ("AllowExecutionFrom" ++ sourceComponent.type)),
            ("action", .str "lambda:InvokeFunction"),
            ("function_name", .str ("$\x7baws_lambda_function." ++ targetName ++ ".function_name\x7d")),
            ("principal", .str "sqs.amazonaws.com"),
            ("source_arn", .str ("$\x7baws_sqs_queue." ++ sourceName ++ ".arn\x7d")) ],
        description := "Allow " ++ sourceComponent.type ++ " to invoke " ++ targetComponent.type }
  else none

/-- One connection of the `generateResourceBasedPolicies` loop. -/
def resourceBasedStep (components : List AWSComponent)
    (acc : List GeneratedIAMPolicy) (connection : Connection) :
    List GeneratedIAMPolicy :=
  match findComp components connection.from_, findComp components connection.to_ with
  | some fromComponent, some toComponent =>
      (getIAMPolicyRequirements fromComponent.type toComponent.type connection.type).foldl
        (fun acc req =>
          if req.policyType = "resource-based" then
            match generateResourceBasedPolicy req fromComponent toComponent connection with
            | some policy => acc ++ [policy]
            | none => acc
          else acc)
        acc
  | _, _ => acc

/-- `generateResourceBasedPolicies`. -/
def generateResourceBasedPolicies (components : List AWSComponent)
    (connections : List Connection) : List GeneratedIAMPolicy :=
  connections.foldl (resourceBasedStep components) []

/-- Insert a connection under a source-component key, mirroring JS `Map`
insertion-order semantics (`connectionsBySource`). -/
def insertGroup (k : String) (c : Connection) :
    List (String × List Connection) → List (String × List Connection)
  | [] => [(k, [c])]
  | (k', cs) :: rest =>
      if k' = k then (k', cs ++ [c]) :: rest else (k', cs) :: insertGroup k c rest

/-- One connection of the grouping loop of `generateExecutionRolePolicies`. -/
def groupBySourceStep (components : List AWSComponent)
    (acc : List (String × List Connection)) (connection : Connection) :
    List (String × List Connection) :=
  match findComp components connection.from_ with
  | some fromComponent => insertGroup fromComponent.id connection acc
  | none => acc

/-- The `connectionsBySource` map of `generateExecutionRolePolicies`:
connections grouped by the id of their resolved source component, keys in
first-insertion order. -/
def connectionsBySource (components : List AWSComponent)
    (connections : List Connection) : List (String × List Connection) :=
  connections.foldl (groupBySourceStep components) []

/-- The `policiesByTargetType` accumulation: push a requirement (deduplicated
by comma-joined action and resource lists) and a target component
(deduplicated by id) under the `sourceService_targetService` key. -/
def upsertGroup (key : String) (req : IAMPolicyRequirement) (target : AWSComponent) :
    List (String × List IAMPolicyRequirement × List AWSComponent) →
      List (String × List IAMPolicyRequirement × List AWSComponent)
  | [] => [(key, [req], [target])]
  | (k, reqs, tcs) :: rest =>
      if k = key then
        let reqs' :=
          if reqs.any (fun r =>
              joinSep "," r.actions = joinSep "," req.actions ∧
              joinSep "," r.resources = joinSep "," req.resources)
          then reqs else reqs ++ [req]
        let tcs' := if tcs.any (fun tc => tc.id = target.id) then tcs else tcs ++ [target]
        (k, reqs', tcs') :: rest
      else (k, reqs, tcs) :: upsertGroup key req target rest

/-- One connection's contribution to `policiesByTargetType`. -/
def policiesByTargetTypeStep (components : List AWSComponent)
    (sourceComponent : AWSComponent)
    (acc : List (String × List IAMPolicyRequirement × List AWSComponent))
    (connection : Connection) :
    List (String × List IAMPolicyRequirement × List AWSComponent) :=
  match findComp components connection.to_ with
  | none => acc
  | some targetComponent =>
      (getIAMPolicyRequirements sourceComponent.type targetComponent.type connection.type).foldl
        (fun acc req =>
          if req.policyType = "execution-role" then
            upsertGroup (req.sourceService ++ "_" ++ req.targetService) req targetComponent acc
          else acc)
        acc

/-- The consolidated policy document, `JSON.stringify(policy, null, 2)`. -/
def consolidatedPolicyJSON (actions resources : List String) : String :=
  jsonStringify2
    (.obj
      [ ("Version", .str "2012-10-17"),
        ("Statement", .arr
          [ .obj
              [ ("Effect", .str "Allow"),
                ("Action", .arr (actions.map .str)),
                ("Resource", .arr (resources.map .str)) ] ]) ])
    0

/-- `generateConsolidatedExecutionRolePolicy`. -/
def generateConsolidatedExecutionRolePolicy (requirements : List IAMPolicyRequirement)
    (sourceComponent : AWSComponent) (targetComponents : List AWSComponent)
    (policyKey : String) : Option GeneratedIAMPolicy :=
  let sourceName := propNameOr sourceComponent.properties (lowerUnderscore sourceComponent.type)
  let roleName := jsToLower sourceComponent.type ++ "_execution_role"
  let allActions := dedupFirst (requirements.flatMap (·.actions))
  let allResources := dedupFirst (requirements.flatMap (·.resources))
  let resourceArns :=
    (targetComponents.map (fun targetComponent =>
      let targetName := propNameOr targetComponent.properties (lowerUnderscore targetComponent.type)
      allResources.map (fun resource => replaceFirstStar resource targetName))).flatten
  some
    { type := "aws_iam_role_policy",
      name := sourceName ++ "_" ++ policyKey ++ "_access",
      properties :=
        [ ("name", .str (sourceName ++ "-" ++ policyKey ++ "-access")),
          ("role", .str ("$\x7baws_iam_role." ++ roleName ++ ".id\x7d")),
          ("policy", .str (consolidatedPolicyJSON allActions resourceArns)) ],
      description :=
        "Allow " ++ sourceComponent.type ++ " to access " ++
          joinSep ", " (targetComponents.map (·.type)) }

/-- The policies emitted for one `connectionsBySource` entry. -/
def consolidatedPoliciesForSource (components : List AWSComponent)
    (sourceComponentId : String) (conns : List Connection) : List GeneratedIAMPolicy :=
  match findComp components sourceComponentId with
  | none => []
  | some sourceComponent =>
      let groups := conns.foldl (policiesByTargetTypeStep components sourceComponent) []
      groups.foldl
        (fun acc g =>
          if g.2.1.length > 0 then
            match generateConsolidatedExecutionRolePolicy g.2.1 sourceComponent g.2.2 g.1 with
            | some policy => acc ++ [policy]
            | none => acc
          else acc)
        []

/-- `generateExecutionRolePolicies`. -/
def generateExecutionRolePolicies (components : List AWSComponent)
    (connections : List Connection) : List GeneratedIAMPolicy :=
  (connectionsBySource components connections).foldl
    (fun acc g => acc ++ consolidatedPoliciesForSource components g.1 g.2) []

/-- `generateAllIAMPolicies`: concatenation of the three phases; the
caller-supplied dedup ledgers are threaded explicitly (the source mutates
`context.existingRoles` inside phase A and leaves `existingPolicies`
untouched). -/
def generateAllIAMPolicies (components : List AWSComponent)
    (connections : List Connection) (existingRoles existingPolicies : List String) :
    List GeneratedIAMPolicy × List String × List String :=
  let phaseA := generateExecutionRoles components connections existingRoles
  let resourcePolicies := generateResourceBasedPolicies components connections
  let executionPolicies := generateExecutionRolePolicies components connections
  (phaseA.1 ++ resourcePolicies ++ executionPolicies, phaseA.2, existingPolicies)

/-- `generateBasicExecutionRoleAttachments`. -/
def generateBasicExecutionRoleAttachments (components : List AWSComponent)
    (existingPolicies : List String) : List GeneratedIAMPolicy × List String :=
  let hasLambda := components.any (fun comp => comp.type = "Lambda")
  if hasLambda ∧ "lambda_basic_execution" ∉ existingPolicies then
    ([ { type := "aws_iam_role_policy_attachment",
         name := "lambda_basic_execution",
         properties :=
           [ ("role", .str "$\x7baws_iam_role.lambda_execution_role.name\x7d"),
             ("policy_arn", .str "arn:aws:iam::aws:policy/service-role/AWSLambdaBasicExecutionRole") ],
         description := "Basic execution role for Lambda" } ],
      existingPolicies ++ ["lambda_basic_execution"])
  else ([], existingPolicies)

/-! ## `TerraformCodePanel.tsx`: per-component resource generation -/

/-- JS object property assignment: update in place if the key exists,
append otherwise. -/
def setProp (props : List (String × Value)) (k : String) (v : Value) :
    List (String × Value) :=
  if props.any (fun kv => kv.1 = k) then
    props.map (fun kv => if kv.1 = k then (k, v) else kv)
  else props ++ [(k, v)]

/-- The `isPublic !== false` test on subnet properties. -/
def propIsNotFalse (props : List (String × Value)) (key : String) : Bool :=
  match getProp props key with
  | some (.bool false) => false
  | _ => true

/-- The opposite endpoint of a connection touching `component`. -/
def otherEnd (component : AWSComponent) (conn : Connection) : String :=
  if conn.from_ = component.id then conn.to_ else conn.from_

/-- One step of the Lambda environment-variable accumulation. -/
def lambdaEnvStep (component : AWSComponent) (allComponents : List AWSComponent)
    (env : List (String × Value)) (connection : Connection) : List (String × Value) :=
  match findComp allComponents (otherEnd component connection) with
  | none => env
  | some connectedComp =>
      let connectedName := sanitizeName (propNameOr connectedComp.properties (jsToLower connectedComp.type))
      if connectedComp.type = "S3" then
        if connection.type = "trigger" ∧ connection.from_ ≠ component.id then
          setProp env ("INPUT_BUCKET") (.str ("aws_s3_bucket." ++ connectedName ++ ".bucket"))
        else if connection.type = "permission" ∧ connection.from_ = component.id then
          setProp env ("OUTPUT_BUCKET") (.str ("aws_s3_bucket." ++ connectedName ++ ".bucket"))
        else env
      else if connectedComp.type = "DynamoDB" then
        setProp env ("DYNAMODB_TABLE") (.str ("aws_dynamodb_table." ++ connectedName ++ ".name"))
      else if connectedComp.type = "SQS" then
        setProp env ("SQS_QUEUE_URL") (.str ("aws_sqs_queue." ++ connectedName ++ ".url"))
      else if connectedComp.type = "SNS" then
        setProp env ("SNS_TOPIC_ARN") (.str ("aws_sns_topic." ++ connectedName ++ ".arn"))
      else env

/-- `generateResourceForComponent`, all switch cases in source order.  The
source's `if (resource)` truthiness guard at the call site is vacuous
because every branch returns a record, so the function is total here. -/
def generateResourceForComponent (component : AWSComponent)
    (allComponents : List AWSComponent) (connections : List Connection) :
    TerraformResource :=
  let rawName := propNameOr component.properties (lowerUnderscore component.type)
  let baseName := sanitizeName rawName
  if component.type = "EC2" then
    let sgComponent := allComponents.find? (fun c => c.type = "Security Group")
    { type := "aws_instance", name := baseName,
      properties :=
        [ ("ami", .str "var.ami_id"),
          ("instance_type", .str "var.instance_type") ] ++
        (match sgComponent with
         | some sg =>
             [ ("vpc_security_group_ids",
                .str ("[aws_security_group." ++ sanitizeName (propNameOr sg.properties ("security_group")) ++ ".id]")) ]
         | none => []) ++
        [ ("tags", .obj [("Name", .str baseName)]) ] }
  else if component.type = "S3" then
    { type := "aws_s3_bucket", name := baseName,
      properties :=
        [ ("bucket", .str ("var.s3_bucket_prefix_" ++ baseName)),
          ("tags", .obj [("Name", .str baseName)]) ] }
  else if component.type = "RDS" then
    { type := "aws_db_instance", name := baseName,
      properties :=
        [ ("identifier", .str baseName),
          ("engine", .str "mysql"),
          ("engine_version", .str "8.0"),
          ("instance_class", .str "var.db_instance_class"),
          ("allocated_storage", .num 20),
          ("db_name", .str (dashesToUnderscores baseName)),
          ("username", .str "var.db_username"),
          ("password", .str "var.db_password"),
          ("skip_final_snapshot", .bool true),
          ("tags", .obj [("Name", .str baseName)]) ] }
  else if component.type = "DynamoDB" then
    { type := "aws_dynamodb_table", name := baseName,
      properties :=
        [ ("name", .str baseName),
          ("billing_mode", .str "PAY_PER_REQUEST"),
          ("hash_key", .str "id"),
          ("attribute", .arr [.obj [("name", .str "id"), ("type", .str "S")]]),
          ("tags", .obj [("Name", .str baseName)]) ] }
  else if component.type = "Lambda" then
    let lambdaRuntime := propStrOr component.properties ("runtime") ("python3.9")
    let lambdaHandler := propStrOr component.properties ("handler") ("index.handler")
    let lambdaTimeout := propNumOr component.properties ("timeout") 30
    let lambdaMemory := propNumOr component.properties ("memorySize") 128
    let base : List (String × Value) :=
      [ ("filename", .str "var.lambda_zip_path"),
        ("function_name", .str (propNameOr component.properties baseName)),
        ("role", .str "aws_iam_role.lambda_execution_role.arn"),
        ("handler", .str ("\"" ++ lambdaHandler ++ "\"")),
        ("runtime", .str ("\"" ++ lambdaRuntime ++ "\"")),
        ("timeout", .num lambdaTimeout),
        ("memory_size", .num lambdaMemory),
        ("tags", .obj [("Name", .str (propNameOr component.properties baseName))]) ]
    let lambdaConnections := connections.filter
      (fun conn => conn.from_ = component.id ∨ conn.to_ = component.id)
    let props :=
      if lambdaConnections.length > 0 then
        let environmentVariables :=
          lambdaConnections.foldl (lambdaEnvStep component allComponents) []
        if environmentVariables.length > 0 then
          base ++ [("environment", .obj [("variables", .obj environmentVariables)])]
        else base
      else base
    { type := "aws_lambda_function", name := baseName, properties := props }
  else if component.type = "API Gateway" then
    { type := "aws_api_gateway_rest_api", name := baseName,
      properties :=
        [ ("name", .str baseName),
          ("description", .str ("API Gateway for " ++ baseName)),
          ("endpoint_configuration", .obj [("types", .arr [.str "REGIONAL"])]),
          ("tags", .obj [("Name", .str baseName)]) ] }
  else if component.type = "SQS" then
    { type := "aws_sqs_queue", name := baseName,
      properties :=
        [ ("name", .str baseName),
          ("delay_seconds", .num 0),
          ("max_message_size", .num 262144),
          ("message_retention_seconds", .num 345600),
          ("visibility_timeout_seconds", .num 30),
          ("tags", .obj [("Name", .str baseName)]) ] }
  else if component.type = "SNS" then
    { type := "aws_sns_topic", name := baseName,
      properties :=
        [ ("name", .str baseName),
          ("tags", .obj [("Name", .str baseName)]) ] }
  else if component.type = "CloudWatch" then
    { type := "aws_cloudwatch_log_group", name := baseName,
      properties :=
        [ ("name", .str ("/aws/custom/" ++ baseName)),
          ("retention_in_days", .num 14),
          ("tags", .obj [("Name", .str baseName)]) ] }
  else if component.type = "VPC" then
    let vpcCidr := propStrOr component.properties ("cidr") ("10.0.0.0/16")
    { type := "aws_vpc", name := baseName,
      properties :=
        [ ("cidr_block", .str ("\"" ++ vpcCidr ++ "\"")),
          ("enable_dns_hostnames", .bool true),
          ("enable_dns_support", .bool true),
          ("tags", .obj [("Name", .str (propNameOr component.properties baseName))]) ] }
  else if component.type = "Subnet" then
    let parentVpc := allComponents.find? (fun c => c.type = "VPC")
    let vpcName := match parentVpc with
      | some v => sanitizeName (propNameOr v.properties ("vpc"))
      | none => "main"
    let subnetCidr := propStrOr component.properties ("cidr") ("10.0.1.0/24")
    let availabilityZone := propStrOr component.properties ("availabilityZone") ("us-west-2a")
    let isPublic := propIsNotFalse component.properties ("isPublic")
    { type := "aws_subnet", name := baseName,
      properties :=
        [ ("vpc_id", .str ("aws_vpc." ++ vpcName ++ ".id")),
          ("cidr_block", .str ("\"" ++ subnetCidr ++ "\"")),
          ("availability_zone", .str ("\"" ++ availabilityZone ++ "\"")),
          ("map_public_ip_on_launch", .bool isPublic),
          ("tags", .obj
            [ ("Name", .str (propNameOr component.properties baseName)),
              ("Type", .str (if isPublic then "Public" else "Private")) ]) ] }
  else if component.type = "Internet Gateway" then
    let igwVpc := allComponents.find? (fun c => c.type = "VPC")
    let igwVpcName := match igwVpc with
      | some v => sanitizeName (propNameOr v.properties ("vpc"))
      | none => "main"
    { type := "aws_internet_gateway", name := baseName,
      properties :=
        [ ("vpc_id", .str ("aws_vpc." ++ igwVpcName ++ ".id")),
          ("tags", .obj [("Name", .str baseName)]) ] }
  else if component.type = "Security Group" then
    let sgVpc := allComponents.find? (fun c => c.type = "VPC")
    let sgVpcName := match sgVpc with
      | some v => sanitizeName (propNameOr v.properties ("vpc"))
      | none => "main"
    { type := "aws_security_group", name := baseName,
      properties :=
        [ ("name", .str baseName),
          ("description", .str ("Security group for " ++ baseName)),
          ("vpc_id", .str ("aws_vpc." ++ sgVpcName ++ ".id")),
          ("ingress", .arr
            [ .obj
                [ ("from_port", .num 443),
                  ("to_port", .num 443),
                  ("protocol", .str "tcp"),
                  ("cidr_blocks", .arr [.str "0.0.0.0/0"]),
                  ("description", .str "HTTPS") ] ]),
          ("egress", .arr
            [ .obj
                [ ("from_port", .num 0),
                  ("to_port", .num 0),
                  ("protocol", .str "-1"),
                  ("cidr_blocks", .arr [.str "0.0.0.0/0"]),
                  ("description", .str "Allow all outbound") ] ]),
          ("tags", .obj [("Name", .str baseName)]) ] }
  else if component.type = "Load Balancer" then
    let subnets := allComponents.filter (fun c => c.type = "Subnet")
    { type := "aws_lb", name := baseName,
      properties :=
        [ ("name", .str baseName),
          ("internal", .bool false),
          ("load_balancer_type", .str "application"),
          ("subnets",
            if subnets.length > 0 then
              .arr (subnets.map (fun s =>
                .str ("aws_subnet." ++ sanitizeName (propNameOr s.properties ("subnet")) ++ ".id")))
            else .arr [.str "var.subnet_ids"]),
          ("tags", .obj [("Name", .str baseName)]) ] }
  else if component.type = "CloudFront" then
    let cfS3Connection := connections.find? (fun conn =>
      (conn.from_ = component.id ∨ conn.to_ = component.id) ∧
        ((findComp allComponents (otherEnd component conn)).map (fun c => c.type) = some "S3"))
    let cfS3 := cfS3Connection.bind (fun conn => findComp allComponents (otherEnd component conn))
    { type := "aws_cloudfront_distribution", name := baseName,
      properties :=
        [ ("enabled", .bool true),
          ("is_ipv6_enabled", .bool true),
          ("default_root_object", .str "index.html"),
          ("origin", .arr
            [ .obj
                [ ("domain_name",
                   .str (match cfS3 with
                     | some c =>
                         "aws_s3_bucket." ++ sanitizeName (propNameOr c.properties ("s3")) ++
                           ".bucket_regional_domain_name"
                     | none => "var.origin_domain")),
                  ("origin_id", .str "S3Origin") ] ]),
          ("default_cache_behavior", .obj
            [ ("allowed_methods", .arr [.str "GET", .str "HEAD"]),
              ("cached_methods", .arr [.str "GET", .str "HEAD"]),
              ("target_origin_id", .str "S3Origin"),
              ("viewer_protocol_policy", .str "redirect-to-https"),
              ("forwarded_values", .obj
                [ ("query_string", .bool false),
                  ("cookies", .obj [("forward", .str "none")]) ]) ]),
          ("restrictions", .obj
            [ ("geo_restriction", .obj [("restriction_type", .str "none")]) ]),
          ("viewer_certificate", .obj [("cloudfront_default_certificate", .bool true)]),
          ("tags", .obj [("Name", .str baseName)]) ] }
  else if component.type = "Route53" then
    { type := "aws_route53_zone", name := baseName,
      properties :=
        [ ("name", .str "var.domain_name"),
          ("tags", .obj [("Name", .str baseName)]) ] }
  else if component.type = "ElastiCache" then
    { type := "aws_elasticache_cluster", name := baseName,
      properties :=
        [ ("cluster_id", .str baseName),
          ("engine", .str "redis"),
          ("node_type", .str "cache.t3.micro"),
          ("num_cache_nodes", .num 1),
          ("port", .num 6379),
          ("tags", .obj [("Name", .str baseName)]) ] }
  else if component.type = "IAM" then
    { type := "aws_iam_role", name := baseName,
      properties :=
        [ ("name", .str baseName),
          ("assume_role_policy", .str (jsonStringifyC (.obj
            [ ("Version", .str "2012-10-17"),
              ("Statement", .arr
                [ .obj
                    [ ("Action", .str "sts:AssumeRole"),
                      ("Effect", .str "Allow"),
                      ("Principal", .obj [("Service", .str "ec2.amazonaws.com")]) ] ]) ]))),
          ("tags", .obj [("Name", .str baseName)]) ] }
  else if component.type = "KMS" then
    { type := "aws_kms_key", name := baseName,
      properties :=
        [ ("description", .str ("KMS key for " ++ baseName)),
          ("deletion_window_in_days", .num 7),
          ("enable_key_rotation", .bool true),
          ("tags", .obj [("Name", .str baseName)]) ] }
  else if component.type = "SES" then
    { type := "aws_ses_domain_identity", name := baseName,
      properties := [("domain", .str "var.ses_domain")] }
  else if component.type = "Auto Scaling Group" then
    { type := "aws_autoscaling_group", name := baseName,
      properties :=
        [ ("name", .str baseName),
          ("min_size", .num 1),
          ("max_size", .num 3),
          ("desired_capacity", .num 2),
          ("launch_template", .obj
            [ ("id", .str "var.launch_template_id"),
              ("version", .str "$Latest") ]),
          ("vpc_zone_identifier", .arr [.str "var.subnet_ids"]),
          ("tag", .arr
            [ .obj
                [ ("key", .str "Name"),
                  ("value", .str baseName),
                  ("propagate_at_launch", .bool true) ] ]) ] }
  else if component.type = "CodePipeline" then
    { type := "aws_codepipeline", name := baseName,
      properties :=
        [ ("name", .str baseName),
          ("role_arn", .str "var.codepipeline_role_arn"),
          ("artifact_store", .obj
            [ ("location", .str "var.artifact_bucket"),
              ("type", .str "S3") ]),
          ("stage", .arr
            [ .obj
                [ ("name", .str "Source"),
                  ("action", .arr
                    [ .obj
                        [ ("name", .str "Source"),
                          ("category", .str "Source"),
                          ("owner", .str "AWS"),
                          ("provider", .str "CodeStarSourceConnection"),
                          ("version", .str "1"),
                          ("output_artifacts", .arr [.str "source_output"]),
                          ("configuration", .obj
                            [ ("ConnectionArn", .str "var.codestar_connection_arn"),
                              ("FullRepositoryId", .str "var.repository_id"),
                              ("BranchName", .str "main") ]) ] ]) ],
              .obj
                [ ("name", .str "Deploy"),
                  ("action", .arr
                    [ .obj
                        [ ("name", .str "Deploy"),
                          ("category", .str "Deploy"),
                          ("owner", .str "AWS"),
                          ("provider", .str "S3"),
                          ("version", .str "1"),
                          ("input_artifacts", .arr [.str "source_output"]),
                          ("configuration", .obj
                            [ ("BucketName", .str "var.deploy_bucket"),
                              ("Extract", .str "true") ]) ] ]) ] ]),
          ("tags", .obj [("Name", .str baseName)]) ] }
  else if component.type = "CodeBuild" then
    { type := "aws_codebuild_project", name := baseName,
      properties :=
        [ ("name", .str baseName),
          ("description", .str ("CodeBuild project for " ++ baseName)),
          ("service_role", .str "var.codebuild_role_arn"),
          ("artifacts", .obj [("type", .str "NO_ARTIFACTS")]),
          ("environment", .obj
            [ ("compute_type", .str "BUILD_GENERAL1_SMALL"),
              ("image", .str "aws/codebuild/standard:5.0"),
              ("type", .str "LINUX_CONTAINER") ]),
          ("source", .obj
            [ ("type", .str "GITHUB"),
              ("location", .str "var.github_repo_url") ]),
          ("tags", .obj [("Name", .str baseName)]) ] }
  else if component.type = "CodeDeploy" then
    { type := "aws_codedeploy_app", name := baseName,
      properties :=
        [ ("name", .str baseName),
          ("compute_platform", .str "Server"),
          ("tags", .obj [("Name", .str baseName)]) ] }
  else
    { type := "aws_" ++ lowerUnderscore component.type, name := baseName,
      properties := [("tags", .obj [("Name", .str baseName)])] }

/-! ## `TerraformCodePanel.tsx`: trigger wiring and configuration assembly -/

/-- `o?.type` on an optional component. -/
def optType (o : Option AWSComponent) : Option String :=
  o.map (fun c => c.type)

/-- One connection's contribution to the service-specific trigger and
notification resources appended at the end of
`generateTerraformConfiguration`. -/
def triggerResourcesStep (components : List AWSComponent)
    (acc : List TerraformResource) (connection : Connection) : List TerraformResource :=
  if connection.type = "trigger" then
    let fromComponent := findComp components connection.from_
    let toComponent := findComp components connection.to_
    let acc :=
      if optType fromComponent = some "S3" ∧ optType toComponent = some "Lambda" then
        let s3BucketName := sanitizeName (propNameOr (fromComponent.getD default).properties ("s3_bucket"))
        let lambdaFunctionName := sanitizeName (propNameOr (toComponent.getD default).properties ("lambda_function"))
        acc ++
          [ { type := "aws_s3_bucket_notification",
              name := s3BucketName ++ "_lambda_trigger",
              properties :=
                [ ("bucket", .str ("aws_s3_bucket." ++ s3BucketName ++ ".id")),
                  ("lambda_function", .arr
                    [ .obj
                        [ ("lambda_function_arn",
                           .str ("aws_lambda_function." ++ lambdaFunctionName ++ ".arn")),
                          ("events", .arr [.str "s3:ObjectCreated:*"]) ] ]),
                  ("depends_on", .arr
                    [ .str ("aws_lambda_permission." ++ lambdaFunctionName ++ "_" ++
                        s3BucketName ++ "_permission") ]) ] } ]
      else acc
    let acc :=
      if optType fromComponent = some "SNS" ∧ optType toComponent = some "Lambda" then
        let snsTopicName := sanitizeName (propNameOr (fromComponent.getD default).properties ("sns_topic"))
        let lambdaFunctionName := sanitizeName (propNameOr (toComponent.getD default).properties ("lambda_function"))
        acc ++
          [ { type := "aws_sns_topic_subscription",
              name := snsTopicName ++ "_lambda_subscription",
              properties :=
                [ ("topic_arn", .str ("aws_sns_topic." ++ snsTopicName ++ ".arn")),
                  ("protocol", .str "lambda"),
                  ("endpoint", .str ("aws_lambda_function." ++ lambdaFunctionName ++ ".arn")) ] } ]
      else acc
    let acc :=
      if optType fromComponent = some "SQS" ∧ optType toComponent = some "Lambda" then
        let sqsQueueName := sanitizeName (propNameOr (fromComponent.getD default).properties ("sqs_queue"))
        let lambdaFunctionName := sanitizeName (propNameOr (toComponent.getD default).properties ("lambda_function"))
        acc ++
          [ { type := "aws_lambda_event_source_mapping",
              name := sqsQueueName ++ "_lambda_trigger",
              properties :=
                [ ("event_source_arn", .str ("aws_sqs_queue." ++ sqsQueueName ++ ".arn")),
                  ("function_name", .str ("aws_lambda_function." ++ lambdaFunctionName ++ ".arn")),
                  ("batch_size", .num 10),
                  ("enabled", .bool true) ] } ]
      else acc
    let acc :=
      if optType fromComponent = some "API Gateway" ∧ optType toComponent = some "Lambda" then
        let apiName := sanitizeName (propNameOr (fromComponent.getD default).properties ("api_gateway"))
        let lambdaFunctionName := sanitizeName (propNameOr (toComponent.getD default).properties ("lambda_function"))
        acc ++
          [ { type := "aws_api_gateway_resource",
              name := apiName ++ "_resource",
              properties :=
                [ ("rest_api_id", .str ("aws_api_gateway_rest_api." ++ apiName ++ ".id")),
                  ("parent_id", .str ("aws_api_gateway_rest_api." ++ apiName ++ ".root_resource_id")),
                  ("path_part", .str "api") ] },
            { type := "aws_api_gateway_method",
              name := apiName ++ "_method",
              properties :=
                [ ("rest_api_id", .str ("aws_api_gateway_rest_api." ++ apiName ++ ".id")),
                  ("resource_id", .str ("aws_api_gateway_resource." ++ apiName ++ "_resource.id")),
                  ("http_method", .str "ANY"),
                  ("authorization", .str "NONE") ] },
            { type := "aws_api_gateway_integration",
              name := apiName ++ "_integration",
              properties :=
                [ ("rest_api_id", .str ("aws_api_gateway_rest_api." ++ apiName ++ ".id")),
                  ("resource_id", .str ("aws_api_gateway_resource." ++ apiName ++ "_resource.id")),
                  ("http_method", .str ("aws_api_gateway_method." ++ apiName ++ "_method.http_method")),
                  ("integration_http_method", .str "POST"),
                  ("type", .str "AWS_PROXY"),
                  ("uri", .str ("aws_lambda_function." ++ lambdaFunctionName ++ ".invoke_arn")) ] } ]
      else acc
    acc
  else acc

/-- All trigger/notification resources, in connection-list order. -/
def triggerResources (components : List AWSComponent)
    (connections : List Connection) : List TerraformResource :=
  connections.foldl (triggerResourcesStep components) []

/-- `generateTerraformConfiguration`: provider record, per-component
resources, IAM policy records, basic execution-role attachments, then
trigger wiring, sharing one pair of dedup ledgers as in the source. -/
def generateTerraformConfiguration (components : List AWSComponent)
    (connections : List Connection) : TerraformConfiguration :=
  let resources : List TerraformResource :=
    [ { type := "provider", name := "aws", properties := [("region", .str "us-west-2")] } ]
  let resources := components.foldl
    (fun acc component => acc ++ [generateResourceForComponent component components connections])
    resources
  let iamResult := generateAllIAMPolicies components connections [] []
  let resources := iamResult.1.foldl
    (fun acc policy =>
      acc ++ [{ type := policy.type, name := policy.name, properties := policy.properties }])
    resources
  let basicAttachments := (generateBasicExecutionRoleAttachments components iamResult.2.2).1
  let resources := basicAttachments.foldl
    (fun acc attachment =>
      acc ++ [{ type := attachment.type, name := attachment.name,
                properties := attachment.properties }])
    resources
  let resources := connections.foldl (triggerResourcesStep components) resources
  { provider := "aws", resources := resources, vars := [], outputs := [] }

/-! ## `TerraformCodePanel.tsx`: the HCL text formatter -/

/-- `isTerraformReference`. -/
def isTerraformReference (value : String) : Bool :=
  value.startsWith ("var.") ∨ value.startsWith ("aws_") ∨ value.startsWith ("$\x7b") ∨
    value.startsWith ("local.") ∨ value.startsWith ("data.")

/-- `typeof v === 'object' && !Array.isArray(v)`: a plain object, or the
`null` value (whose JS `typeof` is also `object`). -/
def isObjLike : Value → Bool
  | .obj _ => true
  | .null => true
  | _ => false

/-- `typeof v === 'object'` alone: objects, arrays and `null`. -/
def isObjTypeof : Value → Bool
  | .obj _ => true
  | .arr _ => true
  | .null => true
  | _ => false

mutual

/-- `formatValue`: renders one value as HCL text.  The source's check for a
string that starts with an interpolation marker and ends with a brace is
kept although it is unreachable (the reference check already returned). -/
def formatValue (value : Value) (indent : Nat) : String :=
  match value with
  | .null => "null"
  | .bool b => if b then "true" else "false"
  | .num n => toString n
  | .str s =>
      if isTerraformReference s then s
      else if s.startsWith ("$\x7b") ∧ s.endsWith ("\x7d") then "\"" ++ s ++ "\""
      else "\"" ++ escapeQuotes s ++ "\""
  | .arr [] => "[]"
  | .arr (x :: xs) =>
      if isObjLike x then joinSep "\n" (formatValueSeq (x :: xs) indent)
      else "[" ++ joinSep ", " (formatValueItems (x :: xs) indent) ++ "]"
  | .obj [] => "\x7b\x7d"
  | .obj (kv :: kvs) =>
      "\x7b\n" ++ joinSep "\n" (formatValueEntries (kv :: kvs) indent) ++ "\n" ++
        spaces indent ++ "\x7d"

/-- Block-style array elements: each formatted at the same indentation. -/
def formatValueSeq : List Value → Nat → List String
  | [], _ => []
  | v :: rest, indent => formatValue v indent :: formatValueSeq rest indent

/-- Plain list elements: references stay raw, others recurse two deeper. -/
def formatValueItems : List Value → Nat → List String
  | [], _ => []
  | v :: rest, indent =>
      (match v with
       | .str s => if isTerraformReference s then s else formatValue (.str s) (indent + 2)
       | w => formatValue w (indent + 2)) :: formatValueItems rest indent

/-- Inline-map entries. -/
def formatValueEntries : List (String × Value) → Nat → List String
  | [], _ => []
  | (k, v) :: rest, indent =>
      (spaces (indent + 2) ++ k ++ " = " ++ formatValue v (indent + 2)) ::
        formatValueEntries rest indent

end

/-- The keys whose object arrays render as repeated blocks. -/
def repeatedBlockKeys : List String :=
  ["ingress", "egress", "stage", "action", "attribute", "origin", "tag", "lambda_function"]

/-- The keys whose nested objects render as sub-blocks. -/
def nestedBlockKeys : List String :=
  ["environment", "endpoint_configuration", "default_cache_behavior",
   "restrictions", "geo_restriction", "viewer_certificate", "forwarded_values",
   "cookies", "artifacts", "source", "launch_template", "artifact_store"]

/-- `Object.entries` of an item assumed to be an object (every array item
the generator feeds to the repeated-block branch is one). -/
def objEntriesOf : Value → List (String × Value)
  | .obj kvs => kvs
  | _ => []

/-- `formatResourceBlock` at indentation `indent`. -/
def formatResourceBlock (resource : TerraformResource) (indent : Nat) : String :=
  let sp := spaces indent
  resource.properties.foldl
    (fun output kv =>
      let key := kv.1
      let value := kv.2
      match value with
      | .null => output
      | .arr (x :: xs) =>
          if isObjTypeof x ∧ key ∈ repeatedBlockKeys then
            output ++ String.join ((x :: xs).map (fun item =>
              sp ++ key ++ " \x7b\n" ++
              String.join ((objEntriesOf item).map (fun e =>
                sp ++ "  " ++ e.1 ++ " = " ++ formatValue e.2 (indent + 2) ++ "\n")) ++
              sp ++ "\x7d\n\n"))
          else output ++ sp ++ key ++ " = " ++ formatValue value indent ++ "\n"
      | .obj entries =>
          if key ∈ nestedBlockKeys then
            output ++ sp ++ key ++ " \x7b\n" ++
              String.join (entries.map (fun e =>
                match e.2 with
                | .obj es2 =>
                    sp ++ "  " ++ e.1 ++ " \x7b\n" ++
                    String.join (es2.map (fun e2 =>
                      sp ++ "    " ++ e2.1 ++ " = " ++ formatValue e2.2 (indent + 4) ++ "\n")) ++
                    sp ++ "  \x7d\n"
                | w => sp ++ "  " ++ e.1 ++ " = " ++ formatValue w (indent + 2) ++ "\n")) ++
              sp ++ "\x7d\n\n"
          else output ++ sp ++ key ++ " = " ++ formatValue value indent ++ "\n"
      | _ => output ++ sp ++ key ++ " = " ++ formatValue value indent ++ "\n")
    ""

/-- One `resource "type" "name" { ... }` block. -/
def resourceBlockText (resource : TerraformResource) : String :=
  "resource \"" ++ resource.type ++ "\" \"" ++ resource.name ++ "\" \x7b\n" ++
    formatResourceBlock resource 2 ++ "\x7d\n\n"

/-- The banner line of the generated HCL preamble comments (60 equals
signs). -/
def hclBanner : String := "# " ++ String.mk (List.replicate 60 (Char.ofNat 61)) ++ "\n"

/-- The fixed preamble of `formatTerraformCode` (provider, variables). -/
def terraformPreamble : String :=
  "# Terraform configuration generated by AWS Architecture Builder\n" ++
  hclBanner ++
  "# IMPORTANT: Review and customize variables before applying\n" ++
  hclBanner ++
  "\n" ++
  "terraform \x7b\n" ++
  "  required_version = \">= 1.0\"\n" ++
  "  \n" ++
  "  required_providers \x7b\n" ++
  "    aws = \x7b\n" ++
  "      source  = \"hashicorp/aws\"\n" ++
  "      version = \"~> 5.0\"\n" ++
  "    \x7d\n" ++
  "  \x7d\n" ++
  "\x7d\n" ++
  "\n" ++
  "provider \"aws\" \x7b\n" ++
  "  region = var.aws_region\n" ++
  "\x7d\n" ++
  "\n" ++
  hclBanner ++
  "# Variables - Customize these values\n" ++
  hclBanner ++
  "\n" ++
  "variable \"aws_region\" \x7b\n" ++
  "  description = \"AWS region to deploy resources\"\n" ++
  "  type        = string\n" ++
  "  default     = \"us-west-2\"\n" ++
  "\x7d\n" ++
  "\n" ++
  "variable \"ami_id\" \x7b\n" ++
  "  description = \"AMI ID for EC2 instances\"\n" ++
  "  type        = string\n" ++
  "  default     = \"ami-0c02fb55956c7d316\"\n" ++
  "\x7d\n" ++
  "\n" ++
  "variable \"instance_type\" \x7b\n" ++
  "  description = \"EC2 instance type\"\n" ++
  "  type        = string\n" ++
  "  default     = \"t3.micro\"\n" ++
  "\x7d\n" ++
  "\n" ++
  "variable \"db_instance_class\" \x7b\n" ++
  "  description = \"RDS instance class\"\n" ++
  "  type        = string\n" ++
  "  default     = \"db.t3.micro\"\n" ++
  "\x7d\n" ++
  "\n" ++
  "variable \"db_username\" \x7b\n" ++
  "  description = \"Database admin username\"\n" ++
  "  type        = string\n" ++
  "  sensitive   = true\n" ++
  "\x7d\n" ++
  "\n" ++
  "variable \"db_password\" \x7b\n" ++
  "  description = \"Database admin password\"\n" ++
  "  type        = string\n" ++
  "  sensitive   = true\n" ++
  "\x7d\n" ++
  "\n" ++
  "variable \"vpc_cidr\" \x7b\n" ++
  "  description = \"CIDR block for VPC\"\n" ++
  "  type        = string\n" ++
  "  default     = \"10.0.0.0/16\"\n" ++
  "\x7d\n" ++
  "\n" ++
  "variable \"subnet_cidr\" \x7b\n" ++
  "  description = \"CIDR block for subnet\"\n" ++
  "  type        = string\n" ++
  "  default     = \"10.0.1.0/24\"\n" ++
  "\x7d\n" ++
  "\n" ++
  "variable \"availability_zone\" \x7b\n" ++
  "  description = \"Availability zone for subnet\"\n" ++
  "  type        = string\n" ++
  "  default     = \"us-west-2a\"\n" ++
  "\x7d\n" ++
  "\n" ++
  "variable \"lambda_zip_path\" \x7b\n" ++
  "  description = \"Path to Lambda function zip file\"\n" ++
  "  type        = string\n" ++
  "  default     = \"lambda_function.zip\"\n" ++
  "\x7d\n" ++
  "\n" ++
  hclBanner ++
  "# Resources\n" ++
  hclBanner ++
  "\n"

/-- The header of the outputs section. -/
def outputsHeader : String :=
  hclBanner ++
  "# Outputs\n" ++
  hclBanner ++
  "\n"

/-- One `output` block of the outputs postamble. -/
def outputBlock (outName desc valueExpr : String) : String :=
  "output \"" ++ outName ++ "\" \x7b\n  description = \"" ++ desc ++
    "\"\n  value       = " ++ valueExpr ++ "\n\x7d\n\n"

/-- The outputs emitted for one resource, switching on its type. -/
def outputsFor (resource : TerraformResource) : String :=
  if resource.type = "aws_lambda_function" then
    outputBlock (resource.name ++ "_function_arn") ("ARN of the Lambda function")
      ("aws_lambda_function." ++ resource.name ++ ".arn") ++
    outputBlock (resource.name ++ "_function_name") ("Name of the Lambda function")
      ("aws_lambda_function." ++ resource.name ++ ".function_name")
  else if resource.type = "aws_s3_bucket" then
    outputBlock (resource.name ++ "_bucket_name") ("Name of the S3 bucket")
      ("aws_s3_bucket." ++ resource.name ++ ".bucket") ++
    outputBlock (resource.name ++ "_bucket_arn") ("ARN of the S3 bucket")
      ("aws_s3_bucket." ++ resource.name ++ ".arn")
  else if resource.type = "aws_api_gateway_rest_api" then
    outputBlock (resource.name ++ "_api_id") ("ID of the API Gateway")
      ("aws_api_gateway_rest_api." ++ resource.name ++ ".id") ++
    outputBlock (resource.name ++ "_api_execution_arn") ("Execution ARN of the API Gateway")
      ("aws_api_gateway_rest_api." ++ resource.name ++ ".execution_arn")
  else if resource.type = "aws_dynamodb_table" then
    outputBlock (resource.name ++ "_table_name") ("Name of the DynamoDB table")
      ("aws_dynamodb_table." ++ resource.name ++ ".name") ++
    outputBlock (resource.name ++ "_table_arn") ("ARN of the DynamoDB table")
      ("aws_dynamodb_table." ++ resource.name ++ ".arn")
  else if resource.type = "aws_vpc" then
    outputBlock (resource.name ++ "_vpc_id") ("ID of the VPC")
      ("aws_vpc." ++ resource.name ++ ".id") ++
    outputBlock (resource.name ++ "_vpc_cidr") ("CIDR block of the VPC")
      ("aws_vpc." ++ resource.name ++ ".cidr_block")
  else if resource.type = "aws_subnet" then
    outputBlock (resource.name ++ "_subnet_id") ("ID of the Subnet")
      ("aws_subnet." ++ resource.name ++ ".id")
  else if resource.type = "aws_sqs_queue" then
    outputBlock (resource.name ++ "_queue_url") ("URL of the SQS queue")
      ("aws_sqs_queue." ++ resource.name ++ ".url") ++
    outputBlock (resource.name ++ "_queue_arn") ("ARN of the SQS queue")
      ("aws_sqs_queue." ++ resource.name ++ ".arn")
  else if resource.type = "aws_sns_topic" then
    outputBlock (resource.name ++ "_topic_arn") ("ARN of the SNS topic")
      ("aws_sns_topic." ++ resource.name ++ ".arn")
  else if resource.type = "aws_lb" then
    outputBlock (resource.name ++ "_lb_dns") ("DNS name of the Load Balancer")
      ("aws_lb." ++ resource.name ++ ".dns_name") ++
    outputBlock (resource.name ++ "_lb_arn") ("ARN of the Load Balancer")
      ("aws_lb." ++ resource.name ++ ".arn")
  else if resource.type = "aws_db_instance" then
    outputBlock (resource.name ++ "_db_endpoint") ("Endpoint of the RDS instance")
      ("aws_db_instance." ++ resource.name ++ ".endpoint") ++
    outputBlock (resource.name ++ "_db_port") ("Port of the RDS instance")
      ("aws_db_instance." ++ resource.name ++ ".port")
  else ""

/-- `formatTerraformCode`: preamble, one block per non-provider resource,
then the outputs postamble, accumulated exactly as the source's
`code +=` chain. -/
def formatTerraformCode (config : TerraformConfiguration) : String :=
  let code := terraformPreamble
  let code := config.resources.foldl
    (fun acc resource =>
      if resource.type = "provider" then acc else acc ++ resourceBlockText resource)
    code
  let code := code ++ outputsHeader
  let code := config.resources.foldl
    (fun acc resource =>
      if resource.type = "provider" then acc else acc ++ outputsFor resource)
    code
  code

/-! ## Edge creation -/

/-- Symmetric duplicate test: an edge with the same unordered endpoint pair
already exists. -/
def hasUnorderedDup (connections : List Connection) (f t : String) : Bool :=
  connections.any (fun conn =>
    (conn.from_ = f ∧ conn.to_ = t) ∨ (conn.from_ = t ∧ conn.to_ = f))

namespace App

/-- `handleConnectionCreate` from `App.tsx`, the creation path wired to the
live canvas: ports are fixed to `right`/`left` and the category is chosen
from the endpoint kinds alone.  Returns the updated connection list. -/
def handleConnectionCreate (components : List AWSComponent)
    (connections : List Connection) (f t : String) : List Connection :=
  match findComp components f, findComp components t with
  | some fromComponent, some toComponent =>
      if f = t then connections
      else if hasUnorderedDup connections f t then connections
      else
        let connectionType :=
          if fromComponent.type = "S3" ∧ toComponent.type = "Lambda" then "trigger"
          else if fromComponent.type = "API Gateway" ∧ toComponent.type = "Lambda" then "trigger"
          else if fromComponent.type = "Lambda" ∧ toComponent.type = "S3" then "permission"
          else if fromComponent.type = "Lambda" ∧ toComponent.type = "DynamoDB" then "permission"
          else if fromComponent.type = "Lambda" ∧ toComponent.type = "RDS" then "permission"
          else "data_flow"
        connections ++
          [ { from_ := f, to_ := t, type := connectionType,
              direction := "unidirectional", fromPort := "right", toPort := "left" } ]
  | _, _ => connections

end App

namespace PortApp

/-- `handleConnectionCreate` from the port-parameterised editor variant:
the category is derived from the port pair and the endpoint kinds, and a
`left→left` connection is forced to `bidirectional`. -/
def handleConnectionCreate (components : List AWSComponent)
    (connections : List Connection) (f t : String)
    (fromPort : String := "right") (toPort : String := "left") : List Connection :=
  match findComp components f, findComp components t with
  | some fromComponent, some toComponent =>
      if f = t then connections
      else if hasUnorderedDup connections f t then connections
      else
        let ctDir : String × String :=
          if fromPort = "right" ∧ toPort = "left" then
            (if fromComponent.type = "S3" ∧ toComponent.type = "Lambda" then "trigger"
             else if fromComponent.type = "API Gateway" ∧ toComponent.type = "Lambda" then "trigger"
             else "data_flow", "unidirectional")
          else if fromPort = "right" ∧ toPort = "right" then ("permission", "unidirectional")
          else if fromPort = "left" ∧ toPort = "left" then ("data_flow", "bidirectional")
          else ("data_flow", "unidirectional")
        connections ++
          [ { from_ := f, to_ := t, type := ctDir.1,
              direction := ctDir.2, fromPort := fromPort, toPort := toPort } ]
  | _, _ => connections

end PortApp

/-! ## Specification-side definitions

These definitions follow the wording of the specification and exist only to
be compared with the embedded source functions. -/

/-- The edge-category rule exactly as the specification states it:
`right→left` is `trigger` for a known trigger pair and `data_flow`
otherwise; `right→right` is `permission`; `left→left` and anything else is
`data_flow`. -/
def specEdgeCategory (fromPort toPort sourceKind targetKind : String) : String :=
  if fromPort = "right" ∧ toPort = "left" then
    if (sourceKind = "S3" ∧ targetKind = "Lambda") ∨
        (sourceKind = "API Gateway" ∧ targetKind = "Lambda") then "trigger"
    else "data_flow"
  else if fromPort = "right" ∧ toPort = "right" then "permission"
  else "data_flow"

/-- The edge-direction rule as the specification states it: `left→left` is
forced to `bidirectional`, everything else is `unidirectional`. -/
def specEdgeDirection (fromPort toPort : String) : String :=
  if fromPort = "left" ∧ toPort = "left" then "bidirectional" else "unidirectional"

/-- The sanitiser as the specification describes it: after lower-casing,
each maximal run of characters outside `[a-z0-9]` becomes a single
underscore (whenever two adjacent characters are both outside the class,
the first is dropped; each remaining one becomes an underscore). -/
def sanitizeSpecAux : List Char → List Char
  | [] => []
  | [c] => [if isLowerAlnum c then c else '_']
  | c :: d :: rest =>
      if ¬ isLowerAlnum c ∧ ¬ isLowerAlnum d then sanitizeSpecAux (d :: rest)
      else (if isLowerAlnum c then c else '_') :: sanitizeSpecAux (d :: rest)

/-- Strip all leading and all trailing underscores, as the specification
describes. -/
def stripUnderscoresSpec (l : List Char) : List Char :=
  (((l.dropWhile (fun c => c = '_')).reverse.dropWhile (fun c => c = '_'))).reverse

/-- The whole sanitiser as the specification describes it. -/
def sanitizeSpec (s : String) : String :=
  ⟨stripUnderscoresSpec (sanitizeSpecAux (s.data.map asciiLower))⟩

/-! ## Lemmas about the sanitiser -/

/-- A sanitised character: kept alphanumeric or underscore. -/
def GoodU (c : Char) : Prop := isLowerAlnum c = true ∨ c = '_'

/-- No two adjacent underscores. -/
def NoAdj (l : List Char) : Prop :=
  l.Chain' (fun a b => ¬(a = '_' ∧ b = '_'))

/-! ## Edge-creation claims -/

/-- The kind-pair category rule that the live `App.tsx` creation path
actually implements. -/
def liveKindCategory (sourceKind targetKind : String) : String :=
  if sourceKind = "S3" ∧ targetKind = "Lambda" then "trigger"
  else if sourceKind = "API Gateway" ∧ targetKind = "Lambda" then "trigger"
  else if sourceKind = "Lambda" ∧ targetKind = "S3" then "permission"
  else if sourceKind = "Lambda" ∧ targetKind = "DynamoDB" then "permission"
  else if sourceKind = "Lambda" ∧ targetKind = "RDS" then "permission"
  else "data_flow"

/-- An edge list satisfying the creation invariants: no self edge and no
two edges with the same unordered endpoint pair. -/
def sameUnorderedPair (a b : Connection) : Prop :=
  (b.from_ = a.from_ ∧ b.to_ = a.to_) ∨ (b.from_ = a.to_ ∧ b.to_ = a.from_)

def edgeInvariant (connections : List Connection) : Prop :=
  (∀ c ∈ connections, c.from_ ≠ c.to_) ∧
  connections.Pairwise (fun a b => ¬ sameUnorderedPair a b)

/-! ## Category independence (C10) -/

/-- The endpoints of a connection, the only connection data
`generateAllIAMPolicies` ever reads. -/
def connEndpoints (c : Connection) : String × String := (c.from_, c.to_)

/-- A connection with the same endpoints and all other fields blank. -/
def canonConn (c : Connection) : Connection :=
  ⟨c.from_, c.to_, "", "", "", ""⟩

/-! ## Determinism (C7) -/

/-! ## Formatter stability (C8) -/

/-- Concatenation of a list of strings, in order. -/
def concatStrings : List String → String
  | [] => ""
  | s :: rest => s ++ concatStrings rest

/-! ## The fan-out consolidation scenario (C1, C2)

One Function-kind (`Lambda`) source node with one `permission` edge to each
of a list of Storage-kind (`S3`) target nodes. -/

/-- The scenario's Lambda source node. -/
def lamNode (lid lname : String) : AWSComponent :=
  ⟨lid, "Lambda", [("name", Value.str lname)]⟩

/-- A scenario S3 target node from an (id, name) pair. -/
def s3Node (p : String × String) : AWSComponent :=
  ⟨p.1, "S3", [("name", Value.str p.2)]⟩

/-- A `permission` edge. -/
def permEdge (f t : String) : Connection :=
  ⟨f, t, "permission", "unidirectional", "right", "right"⟩

def fanComponents (lid lname : String) (ts : List (String × String)) :
    List AWSComponent :=
  lamNode lid lname :: ts.map s3Node

def fanEdges (lid : String) (ts : List (String × String)) : List Connection :=
  ts.map (fun p => permEdge lid p.1)

/-- The Lambda→S3 entry of the static requirement table. -/
def lambdaS3Req : IAMPolicyRequirement :=
  { policyType := "execution-role", sourceService := "Lambda", targetService := "S3",
    actions := ["s3:GetObject", "s3:PutObject", "s3:DeleteObject", "s3:ListBucket"],
    resources := ["arn:aws:s3:::bucket-name", "arn:aws:s3:::bucket-name/*"],
    description := "Allow Lambda to access S3 bucket" }

/-- The effective name of a scenario target (its `name` property, or the
lower-cased kind when the property is the empty string). -/
def tnameOf (p : String × String) : String :=
  if p.2 = "" then "s3" else p.2

/-- The two Lambda→S3 resource patterns instantiated at one target name:
the first contains no `*` and stays literal, the second has its `*`
replaced by the name. -/
def s3ResourcePair (n : String) : List String :=
  ["arn:aws:s3:::bucket-name", "arn:aws:s3:::bucket-name/" ++ n]

/-- The full consolidated resource list: both pattern instances per
target, targets in edge order. -/
def expectedS3Arns (ts : List (String × String)) : List String :=
  (ts.map (fun p => s3ResourcePair (tnameOf p))).flatten

/-- The consolidated execution-role policy record the scenario compiles
to. -/
def expectedFanPolicy (lname : String) (ts : List (String × String)) :
    GeneratedIAMPolicy :=
  let sourceName := if lname = "" then "lambda" else lname
  { type := "aws_iam_role_policy",
    name := sourceName ++ "_Lambda_S3_access",
    properties :=
      [ ("name", .str (sourceName ++ "-Lambda_S3-access")),
        ("role", .str "$\x7baws_iam_role.lambda_execution_role.id\x7d"),
        ("policy", .str (consolidatedPolicyJSON lambdaS3Req.actions (expectedS3Arns ts))) ],
    description := "Allow Lambda to access " ++ joinSep ", " (ts.map (fun _ => "S3")) }

/-! ## The S3→Lambda trigger scenario (C3) -/

/-- The C3 scenario input: a Storage node `input-bucket` and a Function
node `processor` joined by one trigger edge. -/
def c3Components : List AWSComponent :=
  [⟨"s1", "S3", [("name", Value.str "input-bucket")]⟩,
   ⟨"l1", "Lambda", [("name", Value.str "processor")]⟩]

def c3Edges : List Connection :=
  [⟨"s1", "l1", "trigger", "unidirectional", "right", "left"⟩]

/-- The compiled resource list of the C3 scenario. -/
def c3Out : List TerraformResource :=
  (generateTerraformConfiguration c3Components c3Edges).resources

/-! ## Dangling-edge analysis (claim C6) -/

/-- First-occurrence key accumulation, the key order of a JS Map built by
repeated insertion. -/
def firstOccAux (acc : List String) : List String → List String
  | [] => acc
  | k :: ks => if k ∈ acc then firstOccAux acc ks else firstOccAux (acc ++ [k]) ks

/-- The source ids of connections whose source resolves, in connection
order and with repetition. -/
def resolvableFroms (components : List AWSComponent)
    (connections : List Connection) : List String :=
  (connections.filter (fun c => (findComp components c.from_).isSome)).map
    (fun c => c.from_)

def c6comps : List AWSComponent :=
  [⟨"A", "Lambda", [("name", Value.str "a")]⟩,
   ⟨"B", "Lambda", [("name", Value.str "b")]⟩,
   ⟨"C", "S3", [("name", Value.str "c")]⟩,
   ⟨"D", "S3", [("name", Value.str "d")]⟩]

/-- An edge whose target id matches no node of `c6comps`. -/
def c6dangling : Connection :=
  ⟨"A", "X", "permission", "unidirectional", "right", "left"⟩

def c6edgesO : List Connection :=
  [⟨"B", "C", "permission", "unidirectional", "right", "left"⟩,
   ⟨"A", "D", "permission", "unidirectional", "right", "left"⟩]

def c6edgesW : List Connection := c6dangling :: c6edgesO

theorem isLowerAlnum_ne_underscore {c : Char} (h : isLowerAlnum c = true) :
    c ≠ '_' := by
  intro he
  subst he
  exact absurd h (by decide)

theorem goodU_asciiLower {c : Char} (h : GoodU c) : asciiLower c = c := by
  have hn : ¬('A' ≤ c ∧ c ≤ 'Z') := by
    rcases h with h | h
    · simp only [isLowerAlnum, decide_eq_true_eq, Bool.or_eq_true] at h
      rcases h with ⟨h1, _⟩ | ⟨_, h2⟩
      · rintro ⟨_, hz⟩
        exact absurd (le_trans h1 hz) (by decide)
      · rintro ⟨ha, _⟩
        exact absurd (le_trans ha h2) (by decide)
    · subst h
      decide
  simp [asciiLower, hn]

theorem replaceBad_cons (c : Char) (rest : List Char) :
    replaceBad (c :: rest) =
      (if isLowerAlnum c then c else '_') :: replaceBad rest := rfl

theorem collapseUnderscores_two (c d : Char) (rest : List Char) :
    collapseUnderscores (c :: d :: rest) =
      if c = '_' ∧ d = '_' then collapseUnderscores (d :: rest)
      else c :: collapseUnderscores (d :: rest) := rfl

theorem sanitizeSpecAux_two (c d : Char) (rest : List Char) :
    sanitizeSpecAux (c :: d :: rest) =
      if ¬ isLowerAlnum c ∧ ¬ isLowerAlnum d then sanitizeSpecAux (d :: rest)
      else (if isLowerAlnum c then c else '_') :: sanitizeSpecAux (d :: rest) := rfl

theorem collapse_replaceBad (l : List Char) :
    collapseUnderscores (replaceBad l) = sanitizeSpecAux l := by
  induction l with
  | nil => rfl
  | cons c rest ih =>
      cases rest with
      | nil => rfl
      | cons d rest2 =>
          have hr : collapseUnderscores (replaceBad (c :: d :: rest2)) =
              if (if isLowerAlnum c then c else '_') = '_' ∧
                  (if isLowerAlnum d then d else '_') = '_' then
                collapseUnderscores (replaceBad (d :: rest2))
              else (if isLowerAlnum c then c else '_') ::
                collapseUnderscores (replaceBad (d :: rest2)) := rfl
          rw [hr, sanitizeSpecAux_two, ih]
          by_cases hc : isLowerAlnum c <;> by_cases hd : isLowerAlnum d
          · simp [hc, hd, isLowerAlnum_ne_underscore hc]
          · simp [hc, hd, isLowerAlnum_ne_underscore hc]
          · simp [hc, hd, isLowerAlnum_ne_underscore hd]
          · simp [hc, hd]

/-- Collapsing preserves the head element. -/
theorem collapseUnderscores_head (l : List Char) :
    (collapseUnderscores l).head? = l.head? := by
  induction l with
  | nil => rfl
  | cons c rest ih =>
      cases rest with
      | nil => rfl
      | cons d rest2 =>
          rw [collapseUnderscores_two]
          by_cases h : c = '_' ∧ d = '_'
          · rw [if_pos h, ih]
            simp [h.1, h.2]
          · rw [if_neg h]
            rfl

/-- Collapsing never produces two adjacent underscores. -/
theorem noAdj_collapse (l : List Char) : NoAdj (collapseUnderscores l) := by
  induction l with
  | nil => exact List.chain'_nil
  | cons c rest ih =>
      cases rest with
      | nil => exact List.chain'_singleton _
      | cons d rest2 =>
          rw [collapseUnderscores_two]
          by_cases h : c = '_' ∧ d = '_'
          · rw [if_pos h]
            exact ih
          · rw [if_neg h]
            refine List.chain'_cons'.mpr ⟨?_, ih⟩
            intro b hb
            rw [collapseUnderscores_head] at hb
            have hb2 : d = b := by simpa using hb
            subst hb2
            exact h

/-- Characters of a collapsed list come from the input. -/
theorem mem_collapseUnderscores {c : Char} {l : List Char}
    (h : c ∈ collapseUnderscores l) : c ∈ l := by
  induction l with
  | nil =>
      rw [show collapseUnderscores [] = [] from rfl] at h
      simp at h
  | cons a rest ih =>
      cases rest with
      | nil => exact h
      | cons d rest2 =>
          rw [collapseUnderscores_two] at h
          by_cases had : a = '_' ∧ d = '_'
          · rw [if_pos had] at h
            exact List.mem_cons_of_mem _ (ih h)
          · rw [if_neg had] at h
            rcases List.mem_cons.mp h with h | h
            · subst h
              exact List.mem_cons_self _ _
            · exact List.mem_cons_of_mem _ (ih h)

theorem collapse_id {l : List Char} (h : NoAdj l) :
    collapseUnderscores l = l := by
  induction l with
  | nil => rfl
  | cons c rest ih =>
      cases rest with
      | nil => rfl
      | cons d rest2 =>
          rw [collapseUnderscores_two]
          have hcd : ¬(c = '_' ∧ d = '_') :=
            (List.chain'_cons'.mp h).1 d (by simp)
          rw [if_neg hcd, ih h.tail]

theorem dropWhile_eq_self_of_head {l : List Char} (h : l.head? ≠ some '_') :
    l.dropWhile (fun c => c = '_') = l := by
  match l with
  | [] => rfl
  | c :: rest =>
      have hc : c ≠ '_' := by
        intro he
        exact h (by simp [he])
      simp [List.dropWhile, hc]

theorem noAdj_reverse {l : List Char} (h : NoAdj l) : NoAdj l.reverse := by
  unfold NoAdj at *
  rw [List.chain'_reverse]
  refine List.Chain'.imp ?_ h
  intro a b hab
  rintro ⟨hx, hy⟩
  exact hab ⟨hy, hx⟩

/-- Dispatch form of `stripEdgeUnderscores` used by the proofs below. -/
theorem stripEdge_eq_cases (l : List Char) :
    stripEdgeUnderscores l =
      (match (dropOneLead l).reverse with
       | [] => dropOneLead l
       | c :: rest => if c = '_' then rest.reverse else dropOneLead l) := rfl

theorem noAdj_head_tail {c : Char} {rest : List Char}
    (h : NoAdj (c :: rest)) (hc : c = '_') : rest.head? ≠ some '_' := by
  intro hh
  match rest, hh with
  | b :: r, hh =>
      have hb : b = '_' := by simpa using hh
      have := (List.chain'_cons'.mp h).1 b (by simp)
      exact this ⟨hc, hb⟩

theorem dropOneLead_dropWhile {l : List Char} (h : NoAdj l) :
    l.dropWhile (fun c => c = '_') = dropOneLead l := by
  match l with
  | [] => rfl
  | c :: rest =>
      by_cases hc : c = '_'
      · rw [dropOneLead, if_pos hc]
        subst hc
        simp only [List.dropWhile, decide_True]
        exact dropWhile_eq_self_of_head (noAdj_head_tail h rfl)
      · rw [dropOneLead, if_neg hc]
        simp [List.dropWhile, hc]

theorem noAdj_dropOneLead {l : List Char} (h : NoAdj l) : NoAdj (dropOneLead l) := by
  match l with
  | [] => exact h
  | c :: rest =>
      rw [dropOneLead]
      by_cases hc : c = '_'
      · rw [if_pos hc]
        exact h.tail
      · rw [if_neg hc]
        exact h

theorem dropOneLead_head {l : List Char} (h : NoAdj l) :
    (dropOneLead l).head? ≠ some '_' := by
  match l with
  | [] => simp [dropOneLead]
  | c :: rest =>
      rw [dropOneLead]
      by_cases hc : c = '_'
      · rw [if_pos hc]
        exact noAdj_head_tail h hc
      · rw [if_neg hc]
        simpa using hc

theorem stripEdge_eq_spec {l : List Char} (h : NoAdj l) :
    stripEdgeUnderscores l = stripUnderscoresSpec l := by
  rw [stripEdge_eq_cases]
  unfold stripUnderscoresSpec
  rw [dropOneLead_dropWhile h]
  have h1 : NoAdj (dropOneLead l) := noAdj_dropOneLead h
  rw [dropOneLead_dropWhile (noAdj_reverse h1)]
  cases hrev : (dropOneLead l).reverse with
  | nil =>
      simp only [hrev]
      rw [show dropOneLead ([] : List Char) = [] from rfl, List.reverse_nil]
      exact List.reverse_eq_nil_iff.mp hrev
  | cons c rest =>
      simp only [hrev]
      rw [show dropOneLead (c :: rest) = if c = '_' then rest else c :: rest from rfl]
      by_cases hc : c = '_'
      · rw [if_pos hc, if_pos hc]
      · rw [if_neg hc, if_neg hc, ← hrev, List.reverse_reverse]

/-- The sanitiser implements exactly what the specification describes. -/
theorem sanitizeName_eq_spec (s : String) : sanitizeName s = sanitizeSpec s := by
  unfold sanitizeName sanitizeSpec
  rw [collapse_replaceBad]
  have h : NoAdj (sanitizeSpecAux (s.data.map asciiLower)) := by
    rw [← collapse_replaceBad]
    exact noAdj_collapse _
  rw [stripEdge_eq_spec h]

theorem goodU_replaceBad {c : Char} {l : List Char} (h : c ∈ replaceBad l) :
    GoodU c := by
  rcases List.mem_map.mp h with ⟨a, _, ha⟩
  by_cases hg : isLowerAlnum a
  · left
    rw [← ha]
    simp [hg]
  · right
    rw [← ha]
    simp [hg]

theorem mem_dropOneLead {c : Char} {l : List Char} (h : c ∈ dropOneLead l) : c ∈ l := by
  match l with
  | [] => exact h
  | a :: rest =>
      rw [dropOneLead] at h
      by_cases ha : a = '_'
      · rw [if_pos ha] at h
        exact List.mem_cons_of_mem _ h
      · rwa [if_neg ha] at h

theorem mem_stripEdge {c : Char} {l : List Char}
    (h : c ∈ stripEdgeUnderscores l) : c ∈ l := by
  rw [stripEdge_eq_cases] at h
  apply mem_dropOneLead (l := l)
  revert h
  cases hrev : (dropOneLead l).reverse with
  | nil =>
      simp only [hrev]
      exact fun h => h
  | cons a rest =>
      simp only [hrev]
      intro h
      by_cases ha : a = '_'
      · rw [if_pos ha] at h
        have : c ∈ a :: rest := List.mem_cons_of_mem _ (List.mem_reverse.mp h)
        rw [← hrev] at this
        exact List.mem_reverse.mp this
      · rwa [if_neg ha] at h

theorem noAdj_stripEdge {l : List Char} (h : NoAdj l) :
    NoAdj (stripEdgeUnderscores l) := by
  rw [stripEdge_eq_cases]
  have h1 : NoAdj (dropOneLead l) := noAdj_dropOneLead h
  cases hrev : (dropOneLead l).reverse with
  | nil =>
      simp only [hrev]
      exact h1
  | cons a rest =>
      simp only [hrev]
      by_cases ha : a = '_'
      · rw [if_pos ha]
        have : NoAdj (a :: rest) := by
          rw [← hrev]
          exact noAdj_reverse h1
        exact noAdj_reverse this.tail
      · rw [if_neg ha]
        exact h1

theorem stripEdge_head {l : List Char} (h : NoAdj l) :
    (stripEdgeUnderscores l).head? ≠ some '_' := by
  rw [stripEdge_eq_cases]
  have h1 : (dropOneLead l).head? ≠ some '_' := dropOneLead_head h
  cases hrev : (dropOneLead l).reverse with
  | nil =>
      simp only [hrev]
      exact h1
  | cons a rest =>
      simp only [hrev]
      by_cases ha : a = '_'
      · rw [if_pos ha]
        cases hr : rest.reverse with
        | nil => simp
        | cons b r =>
            have hl1 : dropOneLead l = b :: (r ++ [a]) := by
              have : dropOneLead l = (a :: rest).reverse := by
                rw [← hrev, List.reverse_reverse]
              rw [this, List.reverse_cons, hr]
              simp
            rw [hl1] at h1
            simpa [hr] using h1
      · rw [if_neg ha]
        exact h1

theorem stripEdge_last {l : List Char} (h : NoAdj l) :
    (stripEdgeUnderscores l).getLast? ≠ some '_' := by
  rw [stripEdge_eq_cases]
  have h1 : NoAdj (dropOneLead l) := noAdj_dropOneLead h
  cases hrev : (dropOneLead l).reverse with
  | nil =>
      simp only [hrev]
      simp [List.reverse_eq_nil_iff.mp hrev]
  | cons a rest =>
      simp only [hrev]
      by_cases ha : a = '_'
      · rw [if_pos ha]
        have hna : NoAdj (a :: rest) := by
          rw [← hrev]
          exact noAdj_reverse h1
        have := noAdj_head_tail hna ha
        rw [List.getLast?_reverse]
        exact this
      · rw [if_neg ha]
        have : (dropOneLead l).getLast? = some a := by
          rw [← List.head?_reverse, hrev]
          rfl
        rw [this]
        simpa using ha

theorem map_asciiLower_id {l : List Char} (h : ∀ c ∈ l, GoodU c) :
    l.map asciiLower = l := by
  have : l.map asciiLower = l.map id := List.map_congr_left (fun c hc => goodU_asciiLower (h c hc))
  rw [this, List.map_id]

theorem replaceBad_id {l : List Char} (h : ∀ c ∈ l, GoodU c) :
    replaceBad l = l := by
  rw [replaceBad]
  have : l.map (fun c => if isLowerAlnum c then c else '_') = l.map id := by
    refine List.map_congr_left ?_
    intro c hc
    rcases h c hc with hg | hg
    · simp [hg]
    · subst hg
      rfl
  rw [this, List.map_id]

theorem stripEdge_id {l : List Char} (h1 : l.head? ≠ some '_')
    (h2 : l.getLast? ≠ some '_') : stripEdgeUnderscores l = l := by
  rw [stripEdge_eq_cases]
  have hl1 : dropOneLead l = l := by
    match l with
    | [] => rfl
    | c :: rest =>
        have hc : c ≠ '_' := by
          intro he
          exact h1 (by simp [he])
        rw [dropOneLead, if_neg hc]
  rw [hl1]
  cases hrev : l.reverse with
  | nil => simp only [hrev]
  | cons a rest =>
      simp only [hrev]
      have : l.getLast? = some a := by
        rw [← List.head?_reverse, hrev]
        rfl
      have ha : a ≠ '_' := by
        intro he
        rw [he] at this
        exact h2 this
      rw [if_neg ha]

/-- The sanitiser is idempotent. -/
theorem sanitizeName_idem (x : String) :
    sanitizeName (sanitizeName x) = sanitizeName x := by
  have hdata : (sanitizeName x).data =
      stripEdgeUnderscores (collapseUnderscores (replaceBad (x.data.map asciiLower))) := rfl
  have hz : NoAdj (collapseUnderscores (replaceBad (x.data.map asciiLower))) :=
    noAdj_collapse _
  have hGood : ∀ c ∈ (sanitizeName x).data, GoodU c := by
    intro c hc
    rw [hdata] at hc
    exact goodU_replaceBad (mem_collapseUnderscores (mem_stripEdge hc))
  have hNoAdj : NoAdj (sanitizeName x).data := by
    rw [hdata]
    exact noAdj_stripEdge hz
  have hHead : (sanitizeName x).data.head? ≠ some '_' := by
    rw [hdata]
    exact stripEdge_head hz
  have hLast : (sanitizeName x).data.getLast? ≠ some '_' := by
    rw [hdata]
    exact stripEdge_last hz
  show (⟨stripEdgeUnderscores (collapseUnderscores (replaceBad
      ((sanitizeName x).data.map asciiLower)))⟩ : String) = sanitizeName x
  rw [map_asciiLower_id hGood, replaceBad_id hGood, collapse_id hNoAdj,
    stripEdge_id hHead hLast]

/-- C4: for every string, `sanitizeName` computes exactly the
specification's description (lowercase, each run of non-`[a-z0-9]`
characters replaced by a single underscore, leading and trailing
underscores stripped); concretely it maps `"My Bucket!! 01"` to
`"my_bucket_01"`; and it is idempotent. -/
theorem C4_sanitize_conformance :
    (∀ x : String, sanitizeName x = sanitizeSpec x) ∧
    sanitizeName ("My Bucket!! 01") = "my_bucket_01" ∧
    (∀ x : String, sanitizeName (sanitizeName x) = sanitizeName x) :=
  ⟨sanitizeName_eq_spec, by decide, sanitizeName_idem⟩

/-- C5 counterexample: the live creation path (`App.tsx`) creates a
Lambda→S3 edge recording ports right→left but category `permission`,
whereas the claimed port rule assigns `data_flow` to a right→left edge of a
non-trigger pair. -/
theorem C5_counterexample :
    App.handleConnectionCreate
        [⟨"l1", "Lambda", []⟩, ⟨"s1", "S3", []⟩] [] ("l1") ("s1") =
      [{ from_ := "l1", to_ := "s1", type := "permission",
         direction := "unidirectional", fromPort := "right", toPort := "left" }] ∧
    specEdgeCategory ("right") ("left") ("Lambda") ("S3") = "data_flow" ∧
    ("permission" : String) ≠ "data_flow" := by
  refine ⟨rfl, by decide, by decide⟩

/-- C5 amended: every edge created by the port-parameterised handler gets
its category from the claimed (fromPort, toPort, sourceKind, targetKind)
rule and its direction from the claimed direction rule; the live `App.tsx`
handler instead always records ports right→left and derives the category
from the kind pair alone (S3→Lambda and API Gateway→Lambda give `trigger`;
Lambda→S3, Lambda→DynamoDB and Lambda→RDS give `permission`; everything
else `data_flow`). -/
theorem C5_amended :
    (∀ components connections f t fp tp,
      PortApp.handleConnectionCreate components connections f t fp tp = connections ∨
      ∃ fc tc, findComp components f = some fc ∧ findComp components t = some tc ∧
        PortApp.handleConnectionCreate components connections f t fp tp =
          connections ++
            [ { from_ := f, to_ := t,
                type := specEdgeCategory fp tp fc.type tc.type,
                direction := specEdgeDirection fp tp,
                fromPort := fp, toPort := tp } ]) ∧
    (∀ components connections f t,
      App.handleConnectionCreate components connections f t = connections ∨
      ∃ fc tc, findComp components f = some fc ∧ findComp components t = some tc ∧
        App.handleConnectionCreate components connections f t =
          connections ++
            [ { from_ := f, to_ := t,
                type := liveKindCategory fc.type tc.type,
                direction := "unidirectional",
                fromPort := "right", toPort := "left" } ]) := by
  constructor
  · intro components connections f t fp tp
    unfold PortApp.handleConnectionCreate
    cases hf : findComp components f with
    | none => left; rfl
    | some fc =>
        cases ht : findComp components t with
        | none => left; rfl
        | some tc =>
            by_cases hft : f = t
            · left
              simp [hft]
            · by_cases hdup : hasUnorderedDup connections f t
              · left
                simp [hft, hdup]
              · right
                refine ⟨fc, tc, rfl, rfl, ?_⟩
                simp only [hft, hdup, if_neg, Bool.false_eq_true, if_false]
                congr 1
                unfold specEdgeCategory specEdgeDirection
                by_cases h1 : fp = "right" ∧ tp = "left"
                · simp only [h1.1, h1.2]
                  by_cases hA : fc.type = "S3" ∧ tc.type = "Lambda"
                  · simp [hA]
                  · by_cases hB : fc.type = "API Gateway" ∧ tc.type = "Lambda"
                    · simp [hA, hB]
                    · simp [hA, hB]
                · by_cases h2 : fp = "right" ∧ tp = "right"
                  · have h3 : ¬(fp = "left" ∧ tp = "left") := by
                      rintro ⟨ha, _⟩
                      rw [ha] at h2
                      simp at h2
                    simp [h1, h2, h3]
                  · by_cases h3 : fp = "left" ∧ tp = "left"
                    · simp [h1, h2, h3]
                    · simp [h1, h2, h3]
  · intro components connections f t
    unfold App.handleConnectionCreate
    cases hf : findComp components f with
    | none => left; rfl
    | some fc =>
        cases ht : findComp components t with
        | none => left; rfl
        | some tc =>
            by_cases hft : f = t
            · left
              simp [hft]
            · by_cases hdup : hasUnorderedDup connections f t
              · left
                simp [hft, hdup]
              · right
                refine ⟨fc, tc, rfl, rfl, ?_⟩
                simp only [hft, hdup, Bool.false_eq_true, if_false]
                rfl

/-- C9: the live creation path refuses a self edge and refuses an edge
whose unordered endpoint pair already exists (zero net change in both
cases), and it preserves the two edge invariants. -/
theorem C9_edge_creation_invariants (components : List AWSComponent)
    (connections : List Connection) (f t : String) :
    (f = t → App.handleConnectionCreate components connections f t = connections) ∧
    (hasUnorderedDup connections f t = true →
      App.handleConnectionCreate components connections f t = connections) ∧
    (edgeInvariant connections →
      edgeInvariant (App.handleConnectionCreate components connections f t)) := by
  unfold App.handleConnectionCreate
  cases hf : findComp components f with
  | none => exact ⟨fun _ => rfl, fun _ => rfl, fun h => h⟩
  | some fc =>
      cases ht : findComp components t with
      | none => exact ⟨fun _ => rfl, fun _ => rfl, fun h => h⟩
      | some tc =>
          by_cases hft : f = t
          · refine ⟨fun _ => by simp [hft], fun _ => by simp [hft], fun h => by simpa [hft] using h⟩
          · by_cases hdup : hasUnorderedDup connections f t
            · refine ⟨fun he => absurd he hft, fun _ => by simp [hft, hdup],
                fun h => by simpa [hft, hdup] using h⟩
            · refine ⟨fun he => absurd he hft, fun hd => absurd hd (by simp [hdup]), ?_⟩
              intro h
              simp only [hft, hdup, Bool.false_eq_true, if_false]
              constructor
              · intro c hc
                rcases List.mem_append.mp hc with hc | hc
                · exact h.1 c hc
                · have : c.from_ = f ∧ c.to_ = t := by
                    rcases List.mem_singleton.mp hc with rfl
                    exact ⟨rfl, rfl⟩
                  rw [this.1, this.2]
                  exact hft
              · rw [List.pairwise_append]
                refine ⟨h.2, List.pairwise_singleton _ _, ?_⟩
                intro a ha b hb
                rcases List.mem_singleton.mp hb with rfl
                have hnd := hdup
                unfold hasUnorderedDup at hnd
                rw [List.any_eq_true] at hnd
                push_neg at hnd
                have := hnd a ha
                intro hsame
                apply this
                rcases hsame with ⟨h1, h2⟩ | ⟨h1, h2⟩
                · exact decide_eq_true (Or.inl ⟨h1.symm ▸ rfl, h2.symm ▸ rfl⟩)
                · exact decide_eq_true (Or.inr ⟨h2.symm ▸ rfl, h1.symm ▸ rfl⟩)

/-- C9 witness: at a concrete input, a self edge is refused with zero net
change and the invariant is preserved. -/
theorem C9_edge_creation_invariants_witness :
    App.handleConnectionCreate [⟨"a", "S3", []⟩] [] ("a") ("a") = [] ∧
    edgeInvariant (App.handleConnectionCreate [⟨"a", "S3", []⟩] [] ("a") ("a")) :=
  ⟨(C9_edge_creation_invariants [⟨"a", "S3", []⟩] [] ("a") ("a")).1 rfl,
   (C9_edge_creation_invariants [⟨"a", "S3", []⟩] [] ("a") ("a")).2.2
     ⟨by simp, List.Pairwise.nil⟩⟩

theorem foldl_map_canon {β : Type} (step : β → Connection → β)
    (hstep : ∀ acc c, step acc (canonConn c) = step acc c)
    (es : List Connection) (acc : β) :
    (es.map canonConn).foldl step acc = es.foldl step acc := by
  induction es generalizing acc with
  | nil => rfl
  | cons c rest ih => rw [List.map_cons, List.foldl_cons, List.foldl_cons, hstep, ih]

theorem rolesNeededStep_canon (components : List AWSComponent)
    (acc : List String) (c : Connection) :
    rolesNeededStep components acc (canonConn c) = rolesNeededStep components acc c := by
  unfold rolesNeededStep
  rw [show (canonConn c).from_ = c.from_ from rfl, show (canonConn c).to_ = c.to_ from rfl]
  cases findComp components c.from_ <;> cases findComp components c.to_ <;> rfl

theorem policiesByTargetTypeStep_canon (components : List AWSComponent)
    (sc : AWSComponent)
    (acc : List (String × List IAMPolicyRequirement × List AWSComponent))
    (c : Connection) :
    policiesByTargetTypeStep components sc acc (canonConn c) =
      policiesByTargetTypeStep components sc acc c := by
  unfold policiesByTargetTypeStep
  rw [show (canonConn c).to_ = c.to_ from rfl]
  cases findComp components c.to_ <;> rfl

theorem generateExecutionRoles_canon (components : List AWSComponent)
    (es : List Connection) (existingRoles : List String) :
    generateExecutionRoles components (es.map canonConn) existingRoles =
      generateExecutionRoles components es existingRoles := by
  unfold generateExecutionRoles
  rw [foldl_map_canon (rolesNeededStep components) (rolesNeededStep_canon components)]

theorem generateResourceBasedPolicies_canon (components : List AWSComponent)
    (es : List Connection) :
    generateResourceBasedPolicies components (es.map canonConn) =
      generateResourceBasedPolicies components es := by
  unfold generateResourceBasedPolicies
  refine foldl_map_canon _ ?_ es []
  intro acc c
  unfold resourceBasedStep
  rw [show (canonConn c).from_ = c.from_ from rfl, show (canonConn c).to_ = c.to_ from rfl]
  cases findComp components c.from_ <;> cases findComp components c.to_ <;> rfl

theorem insertGroup_map_canon (k : String) (c : Connection)
    (acc : List (String × List Connection)) :
    insertGroup k (canonConn c) (acc.map (fun g => (g.1, g.2.map canonConn))) =
      (insertGroup k c acc).map (fun g => (g.1, g.2.map canonConn)) := by
  induction acc with
  | nil => rfl
  | cons g rest ih =>
      by_cases h : g.1 = k
      · simp [insertGroup, h]
      · simp [insertGroup, h, ih]

theorem connectionsBySource_canon (components : List AWSComponent)
    (es : List Connection) :
    connectionsBySource components (es.map canonConn) =
      (connectionsBySource components es).map (fun g => (g.1, g.2.map canonConn)) := by
  unfold connectionsBySource
  have H : ∀ (l : List Connection) (acc : List (String × List Connection)),
      (l.map canonConn).foldl (groupBySourceStep components)
          (acc.map (fun g => (g.1, g.2.map canonConn))) =
        (l.foldl (groupBySourceStep components) acc).map
          (fun g => (g.1, g.2.map canonConn)) := by
    intro l
    induction l with
    | nil => intro acc; rfl
    | cons c rest ih =>
        intro acc
        rw [List.map_cons, List.foldl_cons, List.foldl_cons]
        unfold groupBySourceStep
        rw [show findComp components (canonConn c).from_ =
          findComp components c.from_ from rfl]
        cases hf : findComp components c.from_ with
        | none => exact ih acc
        | some fc =>
            have h2 := ih (insertGroup fc.id c acc)
            rw [← insertGroup_map_canon fc.id c acc] at h2
            exact h2
  simpa using H es []

theorem consolidatedPoliciesForSource_canon (components : List AWSComponent)
    (sid : String) (conns : List Connection) :
    consolidatedPoliciesForSource components sid (conns.map canonConn) =
      consolidatedPoliciesForSource components sid conns := by
  unfold consolidatedPoliciesForSource
  cases findComp components sid with
  | none => rfl
  | some sc =>
      have h := foldl_map_canon (policiesByTargetTypeStep components sc)
        (policiesByTargetTypeStep_canon components sc) conns []
      exact congrArg
        (fun groups => groups.foldl
          (fun acc g =>
            if g.2.1.length > 0 then
              match generateConsolidatedExecutionRolePolicy g.2.1 sc g.2.2 g.1 with
              | some policy => acc ++ [policy]
              | none => acc
            else acc)
          []) h

theorem generateExecutionRolePolicies_canon (components : List AWSComponent)
    (es : List Connection) :
    generateExecutionRolePolicies components (es.map canonConn) =
      generateExecutionRolePolicies components es := by
  unfold generateExecutionRolePolicies
  rw [connectionsBySource_canon]
  generalize connectionsBySource components es = groups
  induction groups using List.reverseRecOn with
  | nil => rfl
  | append_singleton rest g ih =>
      rw [List.map_append, List.foldl_append, List.foldl_append, ih]
      simp only [List.map_cons, List.map_nil, List.foldl_cons, List.foldl_nil]
      rw [consolidatedPoliciesForSource_canon]

theorem generateAllIAMPolicies_canon (components : List AWSComponent)
    (es : List Connection) (existingRoles existingPolicies : List String) :
    generateAllIAMPolicies components (es.map canonConn) existingRoles existingPolicies =
      generateAllIAMPolicies components es existingRoles existingPolicies := by
  unfold generateAllIAMPolicies
  rw [generateExecutionRoles_canon, generateResourceBasedPolicies_canon,
    generateExecutionRolePolicies_canon]

/-- C10: `compilePolicies` ignores edge categories entirely — two edge
lists that agree on the `(from, to)` endpoint pairs (whatever their
`trigger`/`permission`/`data_flow` categories, directions or ports)
compile to identical output. -/
theorem C10_category_independent (components : List AWSComponent)
    (es es' : List Connection) (existingRoles existingPolicies : List String)
    (h : es.map connEndpoints = es'.map connEndpoints) :
    generateAllIAMPolicies components es existingRoles existingPolicies =
      generateAllIAMPolicies components es' existingRoles existingPolicies := by
  have hmap : es.map canonConn = es'.map canonConn := by
    have h1 : es.map canonConn = (es.map connEndpoints).map (fun p => ⟨p.1, p.2, "", "", "", ""⟩) := by
      rw [List.map_map]; rfl
    have h2 : es'.map canonConn = (es'.map connEndpoints).map (fun p => ⟨p.1, p.2, "", "", "", ""⟩) := by
      rw [List.map_map]; rfl
    rw [h1, h2, h]
  calc generateAllIAMPolicies components es existingRoles existingPolicies
      = generateAllIAMPolicies components (es.map canonConn) existingRoles existingPolicies :=
        (generateAllIAMPolicies_canon components es existingRoles existingPolicies).symm
    _ = generateAllIAMPolicies components (es'.map canonConn) existingRoles existingPolicies := by
        rw [hmap]
    _ = generateAllIAMPolicies components es' existingRoles existingPolicies :=
        generateAllIAMPolicies_canon components es' existingRoles existingPolicies

/-- C10 witness: two concrete edge lists differing only in edge category
compile to the same output. -/
theorem C10_category_independent_witness :
    generateAllIAMPolicies [⟨"l1", "Lambda", []⟩, ⟨"s1", "S3", []⟩]
        [⟨"l1", "s1", "permission", "unidirectional", "right", "right"⟩] [] [] =
      generateAllIAMPolicies [⟨"l1", "Lambda", []⟩, ⟨"s1", "S3", []⟩]
        [⟨"l1", "s1", "data_flow", "bidirectional", "left", "left"⟩] [] [] :=
  C10_category_independent [⟨"l1", "Lambda", []⟩, ⟨"s1", "S3", []⟩] _ _ [] [] rfl

/-- C7: re-running `compilePolicies` on the same nodes and edges, each run
with fresh empty `existingRoles`/`existingPolicies` ledgers, yields
identical output.  The embedding threads the two caller-supplied mutable
sets explicitly, so a run has no state other than its arguments; with both
ledgers fresh and empty, the two runs are the same function application. -/
theorem C7_rerun_deterministic (components : List AWSComponent)
    (connections : List Connection) :
    (generateAllIAMPolicies components connections [] []).1 =
      (generateAllIAMPolicies components connections [] []).1 ∧
    formatTerraformCode (generateTerraformConfiguration components connections) =
      formatTerraformCode (generateTerraformConfiguration components connections) :=
  ⟨rfl, rfl⟩

theorem foldl_skip_provider (g : TerraformResource → String) (init : String)
    (l : List TerraformResource) :
    l.foldl (fun acc r => if r.type = "provider" then acc else acc ++ g r) init =
      init ++ concatStrings ((l.filter (fun r => ¬ r.type = "provider")).map g) := by
  induction l generalizing init with
  | nil =>
      rw [List.foldl_nil, List.filter_nil, List.map_nil,
        show concatStrings [] = "" from rfl, String.append_empty]
  | cons r rest ih =>
      by_cases h : r.type = "provider"
      · rw [List.foldl_cons, if_pos h, ih init, List.filter_cons]
        have hp : (decide ¬(r.type = "provider")) = false := by simp [h]
        rw [hp]
        simp
      · rw [List.foldl_cons, if_neg h, ih (init ++ g r), List.filter_cons]
        have hp : (decide ¬(r.type = "provider")) = true := by simp [h]
        rw [hp]
        simp only [if_true]
        rw [List.map_cons, show concatStrings (g r :: (rest.filter
          (fun r => ¬ r.type = "provider")).map g) = g r ++ concatStrings
          ((rest.filter (fun r => ¬ r.type = "provider")).map g) from rfl,
          String.append_assoc]

/-- C8: the text formatter is stable and order-preserving: formatting the
same resource list twice gives byte-identical text, and the emitted text is
the fixed preamble, then one block per non-provider resource in list order,
then the outputs header and one outputs fragment per non-provider resource
in list order. -/
theorem C8_format_stable (config : TerraformConfiguration) :
    formatTerraformCode config = formatTerraformCode config ∧
    formatTerraformCode config =
      terraformPreamble ++
        concatStrings ((config.resources.filter (fun r => ¬ r.type = "provider")).map
          resourceBlockText) ++
        outputsHeader ++
        concatStrings ((config.resources.filter (fun r => ¬ r.type = "provider")).map
          outputsFor) := by
  refine ⟨rfl, ?_⟩
  unfold formatTerraformCode
  dsimp only
  rw [foldl_skip_provider resourceBlockText terraformPreamble config.resources,
    foldl_skip_provider outputsFor _ config.resources]

theorem getReq_lambda_s3 (ct : String) :
    getIAMPolicyRequirements ("Lambda") ("S3") ct = [lambdaS3Req] := rfl

theorem findComp_fan_lam (lid lname : String) (ts : List (String × String)) :
    findComp (fanComponents lid lname ts) lid = some (lamNode lid lname) := by
  simp [findComp, fanComponents, lamNode, List.find?]

theorem find_s3Node {p : String × String} (ts : List (String × String))
    (hmem : p ∈ ts) (hnd : (ts.map Prod.fst).Nodup) :
    (ts.map s3Node).find? (fun c => c.id = p.1) = some (s3Node p) := by
  induction ts with
  | nil => simp at hmem
  | cons q rest ih =>
      rw [List.map_cons] at hnd ⊢
      rcases List.mem_cons.mp hmem with rfl | hmem2
      · rw [List.find?_cons_of_pos _ (by simp [s3Node])]
      · have hq : q.1 ≠ p.1 := by
          intro he
          have : p.1 ∈ rest.map Prod.fst := List.mem_map_of_mem _ hmem2
          rw [← he] at this
          exact (List.nodup_cons.mp hnd).1 this
        rw [List.find?_cons_of_neg _ (by simp [s3Node, hq]),
          ih hmem2 (List.nodup_cons.mp hnd).2]

theorem findComp_fan_s3 {lid lname : String} {ts : List (String × String)}
    {p : String × String} (hmem : p ∈ ts) (hlid : ∀ q ∈ ts, q.1 ≠ lid)
    (hnd : (ts.map Prod.fst).Nodup) :
    findComp (fanComponents lid lname ts) p.1 = some (s3Node p) := by
  unfold findComp fanComponents
  rw [List.find?_cons_of_neg _ (by simp [lamNode]; exact fun he => hlid p hmem he.symm)]
  exact find_s3Node ts hmem hnd

theorem rolesStep_fan {lid lname : String} {ts : List (String × String)}
    {p : String × String} (hmem : p ∈ ts) (hlid : ∀ q ∈ ts, q.1 ≠ lid)
    (hnd : (ts.map Prod.fst).Nodup) (acc : List String) :
    rolesNeededStep (fanComponents lid lname ts) acc (permEdge lid p.1) =
      if "Lambda" ∈ acc then acc else acc ++ ["Lambda"] := by
  unfold rolesNeededStep
  rw [show (permEdge lid p.1).from_ = lid from rfl,
    show (permEdge lid p.1).to_ = p.1 from rfl,
    findComp_fan_lam, findComp_fan_s3 hmem hlid hnd]
  simp [getReq_lambda_s3, lambdaS3Req, lamNode, s3Node]

theorem fanA_aux {lid lname : String} {ts : List (String × String)}
    (hlid : ∀ q ∈ ts, q.1 ≠ lid) (hnd : (ts.map Prod.fst).Nodup) :
    ∀ rem : List (String × String), (∀ p ∈ rem, p ∈ ts) →
      (fanEdges lid rem).foldl (rolesNeededStep (fanComponents lid lname ts))
        ["Lambda"] = ["Lambda"] := by
  intro rem
  induction rem with
  | nil => intro _; rfl
  | cons p rest ih =>
      intro hsub
      rw [show fanEdges lid (p :: rest) =
        permEdge lid p.1 :: fanEdges lid rest from rfl, List.foldl_cons,
        rolesStep_fan (hsub p (by simp)) hlid hnd]
      rw [if_pos (by simp)]
      exact ih (fun q hq => hsub q (List.mem_cons_of_mem _ hq))

/-- Phase A on the fan scenario: exactly one Lambda execution role. -/
theorem fanA (lid lname : String) (ts : List (String × String))
    (hne : ts ≠ []) (hlid : ∀ q ∈ ts, q.1 ≠ lid)
    (hnd : (ts.map Prod.fst).Nodup) :
    generateExecutionRoles (fanComponents lid lname ts) (fanEdges lid ts) [] =
      ([executionRoleRecord ("Lambda")], ["lambda_execution_role"]) := by
  unfold generateExecutionRoles
  have hserv : (fanEdges lid ts).foldl
      (rolesNeededStep (fanComponents lid lname ts)) [] = ["Lambda"] := by
    cases ts with
    | nil => exact absurd rfl hne
    | cons p rest =>
        rw [show fanEdges lid (p :: rest) =
          permEdge lid p.1 :: fanEdges lid rest from rfl, List.foldl_cons,
          rolesStep_fan (List.mem_cons_self p rest) hlid hnd]
        rw [if_neg (by simp)]
        exact fanA_aux hlid hnd rest (fun q hq => List.mem_cons_of_mem _ hq)
  rw [hserv]
  rfl

/-- Phase B on the fan scenario: no resource-based policies. -/
theorem fanB (lid lname : String) (ts : List (String × String))
    (hlid : ∀ q ∈ ts, q.1 ≠ lid) (hnd : (ts.map Prod.fst).Nodup) :
    generateResourceBasedPolicies (fanComponents lid lname ts) (fanEdges lid ts) = [] := by
  unfold generateResourceBasedPolicies
  have H : ∀ rem : List (String × String), (∀ p ∈ rem, p ∈ ts) →
      ∀ acc : List GeneratedIAMPolicy,
      (fanEdges lid rem).foldl (resourceBasedStep (fanComponents lid lname ts))
        acc = acc := by
    intro rem
    induction rem with
    | nil => intro _ acc; rfl
    | cons p rest ih =>
        intro hsub acc
        rw [show fanEdges lid (p :: rest) =
          permEdge lid p.1 :: fanEdges lid rest from rfl, List.foldl_cons]
        have hfrom : findComp (fanComponents lid lname ts) (permEdge lid p.1).from_ =
            some (lamNode lid lname) := findComp_fan_lam lid lname ts
        have hto : findComp (fanComponents lid lname ts) (permEdge lid p.1).to_ =
            some (s3Node p) := findComp_fan_s3 (hsub p (by simp)) hlid hnd
        have hstep : resourceBasedStep (fanComponents lid lname ts) acc
            (permEdge lid p.1) = acc := by
          unfold resourceBasedStep
          simp only [hfrom, hto]
          rw [show (lamNode lid lname).type = "Lambda" from rfl,
            show (s3Node p).type = "S3" from rfl, getReq_lambda_s3]
          rfl
        rw [hstep]
        exact ih (fun q hq => hsub q (List.mem_cons_of_mem _ hq)) acc
  exact H ts (fun q hq => hq) []

theorem insertGroup_same (k : String) (e : Connection) (done : List Connection) :
    insertGroup k e [(k, done)] = [(k, done ++ [e])] := by
  simp [insertGroup]

/-- The source grouping of the fan scenario: a single entry for the Lambda
node holding all edges in order. -/
theorem fanGroup (lid lname : String) (ts : List (String × String))
    (hne : ts ≠ []) :
    connectionsBySource (fanComponents lid lname ts) (fanEdges lid ts) =
      [(lid, fanEdges lid ts)] := by
  unfold connectionsBySource
  have H : ∀ (rem : List (String × String)) (done : List Connection),
      (fanEdges lid rem).foldl (groupBySourceStep (fanComponents lid lname ts))
        [(lid, done)] = [(lid, done ++ fanEdges lid rem)] := by
    intro rem
    induction rem with
    | nil => intro done; simp [fanEdges]
    | cons p rest ih =>
        intro done
        rw [show fanEdges lid (p :: rest) =
          permEdge lid p.1 :: fanEdges lid rest from rfl, List.foldl_cons]
        have hfrom : findComp (fanComponents lid lname ts) (permEdge lid p.1).from_ =
            some (lamNode lid lname) := findComp_fan_lam lid lname ts
        have hstep : groupBySourceStep (fanComponents lid lname ts) [(lid, done)]
            (permEdge lid p.1) = [(lid, done ++ [permEdge lid p.1])] := by
          unfold groupBySourceStep
          simp only [hfrom]
          rw [show (lamNode lid lname).id = lid from rfl, insertGroup_same]
        rw [hstep, ih]
        simp [fanEdges]
  cases ts with
  | nil => exact absurd rfl hne
  | cons p rest =>
      rw [show fanEdges lid (p :: rest) =
        permEdge lid p.1 :: fanEdges lid rest from rfl, List.foldl_cons]
      have hfrom : findComp (fanComponents lid lname (p :: rest))
          (permEdge lid p.1).from_ = some (lamNode lid lname) :=
        findComp_fan_lam lid lname (p :: rest)
      have hstep : groupBySourceStep (fanComponents lid lname (p :: rest)) []
          (permEdge lid p.1) = [(lid, [permEdge lid p.1])] := by
        unfold groupBySourceStep
        simp only [hfrom]
        rw [show (lamNode lid lname).id = lid from rfl]
        rfl
      rw [hstep, H rest [permEdge lid p.1]]
      rfl

theorem upsert_fan (p : String × String) (done : List (String × String))
    (hnotin : p.1 ∉ done.map Prod.fst) :
    upsertGroup ("Lambda_S3") lambdaS3Req (s3Node p)
        [("Lambda_S3", [lambdaS3Req], done.map s3Node)] =
      [("Lambda_S3", [lambdaS3Req], (done ++ [p]).map s3Node)] := by
  unfold upsertGroup
  rw [if_pos rfl]
  have hreq : ([lambdaS3Req].any (fun r =>
      joinSep (",") r.actions = joinSep (",") lambdaS3Req.actions ∧
      joinSep (",") r.resources = joinSep (",") lambdaS3Req.resources)) = true := by
    decide
  rw [hreq]
  have htc : ((done.map s3Node).any (fun tc => tc.id = (s3Node p).id)) = false := by
    rw [List.any_eq_false]
    intro tc htcmem
    rcases List.mem_map.mp htcmem with ⟨q, hq, rfl⟩
    simp only [s3Node, decide_eq_true_eq]
    intro he
    exact hnotin (by
      rw [← he]
      exact List.mem_map_of_mem _ hq)
  rw [htc]
  simp

theorem fanInner (lid lname : String) (ts : List (String × String))
    (hne : ts ≠ []) (hlid : ∀ q ∈ ts, q.1 ≠ lid)
    (hnd : (ts.map Prod.fst).Nodup) :
    (fanEdges lid ts).foldl
        (policiesByTargetTypeStep (fanComponents lid lname ts) (lamNode lid lname))
        [] = [("Lambda_S3", [lambdaS3Req], ts.map s3Node)] := by
  have step : ∀ (p : String × String), p ∈ ts →
      ∀ acc, policiesByTargetTypeStep (fanComponents lid lname ts) (lamNode lid lname)
          acc (permEdge lid p.1) =
        upsertGroup ("Lambda_S3") lambdaS3Req (s3Node p) acc := by
    intro p hmem acc
    unfold policiesByTargetTypeStep
    have hto : findComp (fanComponents lid lname ts) (permEdge lid p.1).to_ =
        some (s3Node p) := findComp_fan_s3 hmem hlid hnd
    simp only [hto]
    rw [show (lamNode lid lname).type = "Lambda" from rfl,
      show (s3Node p).type = "S3" from rfl, getReq_lambda_s3]
    rfl
  have H : ∀ (rem done : List (String × String)), done ++ rem = ts →
      (fanEdges lid rem).foldl
          (policiesByTargetTypeStep (fanComponents lid lname ts) (lamNode lid lname))
          [("Lambda_S3", [lambdaS3Req], done.map s3Node)] =
        [("Lambda_S3", [lambdaS3Req], ts.map s3Node)] := by
    intro rem
    induction rem with
    | nil =>
        intro done heq
        rw [show fanEdges lid [] = [] from rfl, List.foldl_nil, ← heq,
          List.append_nil]
    | cons p rest ih =>
        intro done heq
        have hmem : p ∈ ts := by
          rw [← heq]
          exact List.mem_append_right done (by simp)
        have hnotin : p.1 ∉ done.map Prod.fst := by
          intro hin
          rw [← heq, List.map_append] at hnd
          have hdisj := (List.nodup_append.mp hnd).2.2
          exact hdisj hin (by simp)
        rw [show fanEdges lid (p :: rest) =
          permEdge lid p.1 :: fanEdges lid rest from rfl, List.foldl_cons,
          step p hmem, upsert_fan p done hnotin,
          ih (done ++ [p]) (by rw [List.append_assoc]; simpa using heq)]
  cases ts with
  | nil => exact absurd rfl hne
  | cons p rest =>
      rw [show fanEdges lid (p :: rest) =
        permEdge lid p.1 :: fanEdges lid rest from rfl, List.foldl_cons,
        step p (by simp)]
      rw [show upsertGroup ("Lambda_S3") lambdaS3Req (s3Node p) [] =
        [("Lambda_S3", [lambdaS3Req], [p].map s3Node)] from rfl]
      exact H rest [p] rfl

theorem replaceStar_bucket (n : String) :
    replaceFirstStar ("arn:aws:s3:::bucket-name") n = "arn:aws:s3:::bucket-name" := rfl

theorem replaceStar_object (n : String) :
    replaceFirstStar ("arn:aws:s3:::bucket-name/*") n =
      "arn:aws:s3:::bucket-name/" ++ n := by
  apply String.ext
  show replaceFirstStarAux n.data ("arn:aws:s3:::bucket-name/*".data) =
    ("arn:aws:s3:::bucket-name/" ++ n).data
  simp [replaceFirstStarAux, String.data_append]

theorem tname_s3Node (p : String × String) :
    propNameOr (s3Node p).properties (lowerUnderscore (s3Node p).type) = tnameOf p := rfl

/-- The consolidated policy emitted for the fan scenario's single group. -/
theorem fanCons (lid lname : String) (ts : List (String × String)) :
    generateConsolidatedExecutionRolePolicy [lambdaS3Req] (lamNode lid lname)
      (ts.map s3Node) ("Lambda_S3") = some (expectedFanPolicy lname ts) := by
  unfold generateConsolidatedExecutionRolePolicy expectedFanPolicy
  refine congrArg some ?_
  have hsrc : propNameOr (lamNode lid lname).properties
      (lowerUnderscore (lamNode lid lname).type) =
      if lname = "" then "lambda" else lname := rfl
  have hress : dedupFirst (([lambdaS3Req] : List IAMPolicyRequirement).flatMap
      (fun r => r.resources)) = lambdaS3Req.resources := by decide
  have hacts : dedupFirst (([lambdaS3Req] : List IAMPolicyRequirement).flatMap
      (fun r => r.actions)) = lambdaS3Req.actions := by decide
  have harns : ((ts.map s3Node).map (fun targetComponent =>
      lambdaS3Req.resources.map (fun resource => replaceFirstStar resource
        (propNameOr targetComponent.properties
          (lowerUnderscore targetComponent.type))))).flatten = expectedS3Arns ts := by
    rw [List.map_map]
    unfold expectedS3Arns
    congr 1
    refine List.map_congr_left ?_
    intro p _
    show lambdaS3Req.resources.map (fun resource => replaceFirstStar resource
      (propNameOr (s3Node p).properties (lowerUnderscore (s3Node p).type))) =
      s3ResourcePair (tnameOf p)
    rw [tname_s3Node]
    show [replaceFirstStar ("arn:aws:s3:::bucket-name") (tnameOf p),
      replaceFirstStar ("arn:aws:s3:::bucket-name/*") (tnameOf p)] = _
    rw [replaceStar_bucket, replaceStar_object]
    rfl
  have hdesc : ((ts.map s3Node).map (fun tc => tc.type)) = ts.map (fun _ => "S3") := by
    rw [List.map_map]
    rfl
  simp only [hsrc, hress, hacts, hdesc]
  rw [show (lamNode lid lname).type = "Lambda" from rfl]
  simp only [harns]
  congr 1
  case e_name =>
    rw [String.append_assoc, String.append_assoc]
    congr 1
  case e_properties =>
    have hn : ((if lname = "" then "lambda" else lname) ++ "-" ++ "Lambda_S3" ++ "-access" :
        String) = (if lname = "" then "lambda" else lname) ++ "-Lambda_S3-access" := by
      rw [String.append_assoc, String.append_assoc]
      congr 1
    have hr : ("$\x7baws_iam_role." : String) ++
        (jsToLower ("Lambda") ++ "_execution_role") ++ ".id\x7d" =
        "$\x7baws_iam_role.lambda_execution_role.id\x7d" := by decide
    rw [hn, hr]

/-- The whole pipeline on the fan scenario: one role record followed by one
consolidated policy record. -/
theorem fan_pipeline (lid lname : String) (ts : List (String × String))
    (hne : ts ≠ []) (hlid : ∀ q ∈ ts, q.1 ≠ lid)
    (hnd : (ts.map Prod.fst).Nodup) :
    (generateAllIAMPolicies (fanComponents lid lname ts) (fanEdges lid ts) [] []).1 =
      [executionRoleRecord ("Lambda"), expectedFanPolicy lname ts] := by
  have hC : generateExecutionRolePolicies (fanComponents lid lname ts)
      (fanEdges lid ts) = [expectedFanPolicy lname ts] := by
    unfold generateExecutionRolePolicies
    rw [fanGroup lid lname ts hne]
    rw [List.foldl_cons, List.foldl_nil, List.nil_append]
    unfold consolidatedPoliciesForSource
    simp only [findComp_fan_lam]
    rw [fanInner lid lname ts hne hlid hnd]
    simp [fanCons lid lname ts]
  unfold generateAllIAMPolicies
  dsimp only
  rw [fanA lid lname ts hne hlid hnd, fanB lid lname ts hlid hnd, hC]
  rfl

theorem expectedS3Arns_length (ts : List (String × String)) :
    (expectedS3Arns ts).length = 2 * ts.length := by
  induction ts with
  | nil => rfl
  | cons p rest ih =>
      show (s3ResourcePair (tnameOf p) ++ expectedS3Arns rest).length =
        2 * (rest.length + 1)
      rw [List.length_append, ih]
      rw [show (s3ResourcePair (tnameOf p)).length = 2 from rfl]
      omega

/-- C1 (amended): one Function source with K permission edges to K distinct
Storage targets compiles to exactly 1 execution-role-category policy record
(not K) and exactly 1 role record, and the consolidated policy's resource
list has exactly 2·K entries — both bucket ARN patterns instantiated once
per target — rather than K. -/
theorem C1_consolidation (lid lname : String) (ts : List (String × String))
    (hne : ts ≠ []) (hlid : ∀ q ∈ ts, q.1 ≠ lid)
    (hnd : (ts.map Prod.fst).Nodup) :
    (((generateAllIAMPolicies (fanComponents lid lname ts) (fanEdges lid ts) [] []).1.filter
        (fun p => p.type = "aws_iam_role")).length = 1) ∧
    (((generateAllIAMPolicies (fanComponents lid lname ts) (fanEdges lid ts) [] []).1.filter
        (fun p => p.type = "aws_iam_role_policy")).length = 1) ∧
    ((generateAllIAMPolicies (fanComponents lid lname ts) (fanEdges lid ts) [] []).1.filter
        (fun p => p.type = "aws_iam_role_policy")) = [expectedFanPolicy lname ts] ∧
    (expectedS3Arns ts).length = 2 * ts.length := by
  simp only [fan_pipeline lid lname ts hne hlid hnd]
  refine ⟨?_, ?_, ?_, expectedS3Arns_length ts⟩ <;>
    simp [executionRoleRecord, expectedFanPolicy]

/-- C1 witness: the amended statement at a concrete two-target instance. -/
theorem C1_consolidation_witness :
    (((generateAllIAMPolicies (fanComponents ("l1") ("fn") ([("s1", "a"), ("s2", "b")]))
        (fanEdges ("l1") ([("s1", "a"), ("s2", "b")])) [] []).1.filter
        (fun p => p.type = "aws_iam_role")).length = 1) ∧
    (((generateAllIAMPolicies (fanComponents ("l1") ("fn") ([("s1", "a"), ("s2", "b")]))
        (fanEdges ("l1") ([("s1", "a"), ("s2", "b")])) [] []).1.filter
        (fun p => p.type = "aws_iam_role_policy")).length = 1) ∧
    ((generateAllIAMPolicies (fanComponents ("l1") ("fn") ([("s1", "a"), ("s2", "b")]))
        (fanEdges ("l1") ([("s1", "a"), ("s2", "b")])) [] []).1.filter
        (fun p => p.type = "aws_iam_role_policy")) =
      [expectedFanPolicy ("fn") ([("s1", "a"), ("s2", "b")])] ∧
    (expectedS3Arns ([("s1", "a"), ("s2", "b")])).length = 2 * 2 :=
  C1_consolidation ("l1") ("fn") ([("s1", "a"), ("s2", "b")])
    (by decide) (by decide) (by decide)

/-- C1 counterexample: for K = 2 distinct Storage targets the unique
consolidated policy's resource list has 4 entries, not K = 2 as the claim
states. -/
theorem C1_counterexample :
    ((generateAllIAMPolicies (fanComponents ("l1") ("fn") ([("s1", "a"), ("s2", "b")]))
        (fanEdges ("l1") ([("s1", "a"), ("s2", "b")])) [] []).1.filter
      (fun p => p.type = "aws_iam_role_policy")) =
      [expectedFanPolicy ("fn") ([("s1", "a"), ("s2", "b")])] ∧
    expectedS3Arns ([("s1", "a"), ("s2", "b")]) =
      ["arn:aws:s3:::bucket-name", "arn:aws:s3:::bucket-name/a",
       "arn:aws:s3:::bucket-name", "arn:aws:s3:::bucket-name/b"] ∧
    (expectedS3Arns ([("s1", "a"), ("s2", "b")])).length = 4 ∧
    ¬((expectedS3Arns ([("s1", "a"), ("s2", "b")])).length = 2) :=
  ⟨rfl, rfl, rfl, by decide⟩

/-- C2 (amended): the consolidated policy's action list is the deduplicated
union of the matched requirements' actions and its resource list is the
cross product of the requirement's resource patterns with each target's
*raw* name (the `name` property, not its sanitised form; the `*` is
substituted at its first occurrence); two Storage targets give a 4-entry
resource list. -/
theorem C2_crossproduct (lid lname : String) (ts : List (String × String))
    (hne : ts ≠ []) (hlid : ∀ q ∈ ts, q.1 ≠ lid)
    (hnd : (ts.map Prod.fst).Nodup) :
    (generateAllIAMPolicies (fanComponents lid lname ts) (fanEdges lid ts) [] []).1 =
      [executionRoleRecord ("Lambda"), expectedFanPolicy lname ts] ∧
    expectedS3Arns ts =
      (ts.map (fun p => lambdaS3Req.resources.map
        (fun r => replaceFirstStar r (tnameOf p)))).flatten ∧
    (expectedS3Arns ts).length = 2 * ts.length := by
  refine ⟨fan_pipeline lid lname ts hne hlid hnd, ?_, expectedS3Arns_length ts⟩
  unfold expectedS3Arns
  congr 1
  refine List.map_congr_left ?_
  intro p _
  rw [show lambdaS3Req.resources.map (fun r => replaceFirstStar r (tnameOf p)) =
    [replaceFirstStar ("arn:aws:s3:::bucket-name") (tnameOf p),
     replaceFirstStar ("arn:aws:s3:::bucket-name/*") (tnameOf p)] from rfl,
    replaceStar_bucket, replaceStar_object]
  rfl

/-- C2 witness: the amended statement at a concrete two-target instance. -/
theorem C2_crossproduct_witness :
    (generateAllIAMPolicies (fanComponents ("l1") ("fn") ([("s1", "a"), ("s2", "b")]))
        (fanEdges ("l1") ([("s1", "a"), ("s2", "b")])) [] []).1 =
      [executionRoleRecord ("Lambda"),
       expectedFanPolicy ("fn") ([("s1", "a"), ("s2", "b")])] ∧
    expectedS3Arns ([("s1", "a"), ("s2", "b")]) =
      (([("s1", "a"), ("s2", "b")] : List (String × String)).map
        (fun p => lambdaS3Req.resources.map
          (fun r => replaceFirstStar r (tnameOf p)))).flatten ∧
    (expectedS3Arns ([("s1", "a"), ("s2", "b")])).length = 2 * 2 :=
  C2_crossproduct ("l1") ("fn") ([("s1", "a"), ("s2", "b")])
    (by decide) (by decide) (by decide)

/-- C2 counterexample: target names are used raw, not sanitised — a target
named "My Bucket" yields the resource entry
`arn:aws:s3:::bucket-name/My Bucket`, which differs from the entry the
sanitised name `my_bucket` would give. -/
theorem C2_counterexample :
    ((generateAllIAMPolicies (fanComponents ("l1") ("fn") ([("s1", "My Bucket")]))
        (fanEdges ("l1") ([("s1", "My Bucket")])) [] []).1.filter
      (fun p => p.type = "aws_iam_role_policy")) =
      [expectedFanPolicy ("fn") ([("s1", "My Bucket")])] ∧
    expectedS3Arns ([("s1", "My Bucket")]) =
      ["arn:aws:s3:::bucket-name", "arn:aws:s3:::bucket-name/My Bucket"] ∧
    sanitizeName ("My Bucket") = "my_bucket" ∧
    ("arn:aws:s3:::bucket-name/My Bucket" : String) ≠
      "arn:aws:s3:::bucket-name/" ++ sanitizeName ("My Bucket") :=
  ⟨rfl, rfl, by decide, by decide⟩

/-- C3 counterexample: the compiled output contains no `aws_iam_role`
record at all (the S3→Lambda requirement is resource-based only), so it
does not include a Function execution role; moreover the bucket
notification's `depends_on` entry names the sanitised permission name
while the emitted permission record carries the raw name, so the
notification does not reference the emitted permission record. -/
theorem C3_counterexample :
    (c3Out.filter (fun r => r.type = "aws_iam_role")) = [] ∧
    (c3Out.filter (fun r => r.type = "aws_lambda_permission")).map (fun r => r.name) =
      ["processor_input-bucket_permission"] ∧
    (c3Out.filter (fun r => r.type = "aws_s3_bucket_notification")).map
      (fun r => getProp r.properties ("depends_on")) =
      [some (.arr [.str "aws_lambda_permission.processor_input_bucket_permission"])] ∧
    ("aws_lambda_permission.processor_input_bucket_permission" : String) ≠
      "aws_lambda_permission." ++ "processor_input-bucket_permission" :=
  ⟨rfl, rfl, rfl, by decide⟩

/-- C3 (amended): the compiled output of the S3→Lambda trigger scenario
contains no execution-role record; it contains exactly one resource-based
invoke-permission record, named from the raw component names, whose
`function_name` references the function and whose `source_arn` references
the bucket by its raw name; and it contains exactly one bucket-notification
record whose `depends_on` entry points at the sanitised permission name
`aws_lambda_permission.processor_input_bucket_permission`, which differs
from the emitted permission record's name. -/
theorem C3_trigger_scenario :
    (c3Out.filter (fun r => r.type = "aws_iam_role")) = [] ∧
    (c3Out.filter (fun r => r.type = "aws_lambda_permission")).map
      (fun r => (r.name, getProp r.properties ("function_name"),
        getProp r.properties ("source_arn"))) =
      [("processor_input-bucket_permission",
        some (.str "$\x7baws_lambda_function.processor.function_name\x7d"),
        some (.str "$\x7baws_s3.input-bucket.arn\x7d"))] ∧
    (c3Out.filter (fun r => r.type = "aws_s3_bucket_notification")).map
      (fun r => (r.name, getProp r.properties ("depends_on"))) =
      [("input_bucket_lambda_trigger",
        some (.arr [.str "aws_lambda_permission.processor_input_bucket_permission"]))] ∧
    ("aws_lambda_permission.processor_input_bucket_permission" : String) ≠
      "aws_lambda_permission." ++ "processor_input-bucket_permission" :=
  ⟨rfl, rfl, rfl, by decide⟩

/-- Folding is unchanged by removing an element on which the step function
acts as the identity. -/
theorem foldl_skip {α β : Type} (f : β → α → β) (x : α)
    (h : ∀ acc, f acc x = acc) (l1 l2 : List α) (a : β) :
    (l1 ++ x :: l2).foldl f a = (l1 ++ l2).foldl f a := by
  rw [List.foldl_append, List.foldl_append, List.foldl_cons, h]

/-- The component found for an id carries that id. -/
theorem findComp_id {components : List AWSComponent} {i : String}
    {fc : AWSComponent} (h : findComp components i = some fc) : fc.id = i := by
  have := List.find?_some h
  simpa using this

theorem rolesNeededStep_skip (components : List AWSComponent)
    (acc : List String) (e : Connection)
    (h : findComp components e.from_ = none ∨ findComp components e.to_ = none) :
    rolesNeededStep components acc e = acc := by
  unfold rolesNeededStep
  rcases h with h | h
  · rw [h]
  · rw [h]; cases findComp components e.from_ <;> rfl

theorem resourceBasedStep_skip (components : List AWSComponent)
    (acc : List GeneratedIAMPolicy) (e : Connection)
    (h : findComp components e.from_ = none ∨ findComp components e.to_ = none) :
    resourceBasedStep components acc e = acc := by
  unfold resourceBasedStep
  rcases h with h | h
  · rw [h]
  · rw [h]; cases findComp components e.from_ <;> rfl

theorem policiesByTargetTypeStep_skip (components : List AWSComponent)
    (sc : AWSComponent)
    (acc : List (String × List IAMPolicyRequirement × List AWSComponent))
    (e : Connection) (h : findComp components e.to_ = none) :
    policiesByTargetTypeStep components sc acc e = acc := by
  unfold policiesByTargetTypeStep
  rw [h]

theorem triggerResourcesStep_skip (components : List AWSComponent)
    (acc : List TerraformResource) (e : Connection)
    (h : findComp components e.from_ = none ∨ findComp components e.to_ = none) :
    triggerResourcesStep components acc e = acc := by
  rcases h with h | h <;> simp [triggerResourcesStep, h, optType]

theorem generateExecutionRoles_skip (components : List AWSComponent)
    (es1 es2 : List Connection) (e : Connection) (r : List String)
    (h : findComp components e.from_ = none ∨ findComp components e.to_ = none) :
    generateExecutionRoles components (es1 ++ e :: es2) r =
      generateExecutionRoles components (es1 ++ es2) r := by
  unfold generateExecutionRoles
  rw [foldl_skip _ _ (fun acc => rolesNeededStep_skip components acc e h)]

theorem generateResourceBasedPolicies_skip (components : List AWSComponent)
    (es1 es2 : List Connection) (e : Connection)
    (h : findComp components e.from_ = none ∨ findComp components e.to_ = none) :
    generateResourceBasedPolicies components (es1 ++ e :: es2) =
      generateResourceBasedPolicies components (es1 ++ es2) := by
  unfold generateResourceBasedPolicies
  rw [foldl_skip _ _ (fun acc => resourceBasedStep_skip components acc e h)]

theorem triggerResources_skip (components : List AWSComponent)
    (es1 es2 : List Connection) (e : Connection)
    (h : findComp components e.from_ = none ∨ findComp components e.to_ = none) :
    triggerResources components (es1 ++ e :: es2) =
      triggerResources components (es1 ++ es2) := by
  unfold triggerResources
  rw [foldl_skip _ _ (fun acc => triggerResourcesStep_skip components acc e h)]

theorem mem_firstOccAux (x : String) (l acc : List String) :
    x ∈ firstOccAux acc l ↔ x ∈ acc ∨ x ∈ l := by
  induction l generalizing acc with
  | nil => simp [firstOccAux]
  | cons k ks ih =>
      by_cases hk : k ∈ acc
      · rw [firstOccAux, if_pos hk, ih]
        constructor
        · rintro (h | h)
          · exact Or.inl h
          · exact Or.inr (List.mem_cons_of_mem _ h)
        · rintro (h | h)
          · exact Or.inl h
          · rcases List.mem_cons.mp h with h | h
            · exact Or.inl (h ▸ hk)
            · exact Or.inr h
      · rw [firstOccAux, if_neg hk, ih]
        simp only [List.mem_append, List.mem_singleton, List.mem_cons]
        tauto

theorem firstOccAux_append (acc l1 l2 : List String) :
    firstOccAux acc (l1 ++ l2) = firstOccAux (firstOccAux acc l1) l2 := by
  induction l1 generalizing acc with
  | nil => rfl
  | cons k ks ih =>
      by_cases hk : k ∈ acc
      · rw [List.cons_append, firstOccAux, if_pos hk, firstOccAux, if_pos hk, ih]
      · rw [List.cons_append, firstOccAux, if_neg hk, firstOccAux, if_neg hk, ih]

theorem firstOccAux_nodup (acc l : List String) (h : acc.Nodup) :
    (firstOccAux acc l).Nodup := by
  induction l generalizing acc with
  | nil => exact h
  | cons k ks ih =>
      by_cases hk : k ∈ acc
      · rw [firstOccAux, if_pos hk]; exact ih acc h
      · rw [firstOccAux, if_neg hk]
        refine ih _ ?_
        rw [List.nodup_append]
        refine ⟨h, List.nodup_singleton k, ?_⟩
        intro a ha hb
        rw [List.mem_singleton] at hb
        exact hk (hb ▸ ha)

theorem firstOccAux_congr_perm (acc1 acc2 l : List String)
    (h : acc1.Perm acc2) : (firstOccAux acc1 l).Perm (firstOccAux acc2 l) := by
  induction l generalizing acc1 acc2 with
  | nil => exact h
  | cons k ks ih =>
      by_cases hk : k ∈ acc1
      · rw [firstOccAux, if_pos hk, firstOccAux, if_pos (h.mem_iff.mp hk)]
        exact ih _ _ h
      · rw [firstOccAux, if_neg hk, firstOccAux,
          if_neg (fun hc => hk (h.mem_iff.mpr hc))]
        exact ih _ _ (h.append_right [k])

theorem firstOccAux_insert_mem (A : String) (acc l : List String)
    (hacc : A ∉ acc) (hl : A ∈ l) :
    (firstOccAux (acc ++ [A]) l).Perm (firstOccAux acc l) := by
  induction l generalizing acc with
  | nil => cases hl
  | cons y ys ih =>
      by_cases hyA : y = A
      · subst hyA
        rw [firstOccAux, if_pos (by simp), firstOccAux, if_neg hacc]
      · have hys : A ∈ ys := by
          rcases List.mem_cons.mp hl with h | h
          · exact absurd h.symm hyA
          · exact h
        by_cases hy : y ∈ acc
        · rw [firstOccAux, if_pos (by simp [hy]), firstOccAux, if_pos hy]
          exact ih acc hacc hys
        · rw [firstOccAux, if_neg (by simp [hy, hyA]), firstOccAux, if_neg hy]
          have h1 : (firstOccAux (acc ++ [A] ++ [y]) ys).Perm
              (firstOccAux (acc ++ [y] ++ [A]) ys) :=
            firstOccAux_congr_perm _ _ ys (by
              rw [List.append_assoc, List.append_assoc]
              exact List.Perm.append_left acc List.perm_append_comm)
          refine h1.trans ?_
          refine ih (acc ++ [y]) ?_ hys
          intro hmem
          rcases List.mem_append.mp hmem with h | h
          · exact hacc h
          · exact hyA (List.mem_singleton.mp h).symm

theorem firstOccAux_insert_not_mem (A : String) (acc l : List String)
    (hl : A ∉ l) :
    (firstOccAux (acc ++ [A]) l).Perm (firstOccAux acc l ++ [A]) := by
  induction l generalizing acc with
  | nil => exact List.Perm.refl _
  | cons y ys ih =>
      have hyA : ¬ (y = A) := fun h => hl (h ▸ List.mem_cons_self y ys)
      have hys : A ∉ ys := fun h => hl (List.mem_cons_of_mem _ h)
      by_cases hy : y ∈ acc
      · rw [firstOccAux, if_pos (by simp [hy]), firstOccAux, if_pos hy]
        exact ih acc hys
      · rw [firstOccAux, if_neg (by simp [hy, hyA]), firstOccAux, if_neg hy]
        have h1 : (firstOccAux (acc ++ [A] ++ [y]) ys).Perm
            (firstOccAux (acc ++ [y] ++ [A]) ys) :=
          firstOccAux_congr_perm _ _ ys (by
            rw [List.append_assoc, List.append_assoc]
            exact List.Perm.append_left acc List.perm_append_comm)
        exact h1.trans (ih (acc ++ [y]) hys)

theorem resolvableFroms_append (components : List AWSComponent)
    (l1 l2 : List Connection) :
    resolvableFroms components (l1 ++ l2) =
      resolvableFroms components l1 ++ resolvableFroms components l2 := by
  unfold resolvableFroms
  rw [List.filter_append, List.map_append]

theorem mem_resolvableFroms (components : List AWSComponent)
    (es : List Connection) (A : String) :
    A ∈ resolvableFroms components es ↔
      (findComp components A).isSome = true ∧ ∃ c ∈ es, c.from_ = A := by
  unfold resolvableFroms
  simp only [List.mem_map, List.mem_filter]
  constructor
  · rintro ⟨c, ⟨hc, hs⟩, hA⟩
    subst hA
    exact ⟨hs, c, hc, rfl⟩
  · rintro ⟨hs, c, hc, hA⟩
    refine ⟨c, ⟨hc, ?_⟩, hA⟩
    rw [hA]
    exact hs

theorem filter_from_eq_nil (components : List AWSComponent)
    (es : List Connection) (A : String)
    (hS : (findComp components A).isSome = true)
    (hnot : A ∉ resolvableFroms components es) :
    es.filter (fun c => c.from_ = A) = [] := by
  rw [List.filter_eq_nil_iff]
  intro c hc hcA
  have hcA2 : c.from_ = A := by simpa using hcA
  exact hnot ((mem_resolvableFroms components es A).mpr ⟨hS, c, hc, hcA2⟩)

theorem insertGroup_map_mem (A : String) (c : Connection)
    (F : String → List Connection) (keys : List String)
    (hnd : keys.Nodup) (hA : A ∈ keys) :
    insertGroup A c (keys.map (fun k => (k, F k))) =
      keys.map (fun k => (k, if k = A then F k ++ [c] else F k)) := by
  induction keys with
  | nil => cases hA
  | cons k ks ih =>
      rw [List.map_cons, List.map_cons]
      by_cases hk : k = A
      · subst hk
        have hks : k ∉ ks := (List.nodup_cons.mp hnd).1
        simp only [insertGroup, eq_self_iff_true, if_true]
        congr 1
        apply List.map_congr_left
        intro k2 hk2
        have hne : ¬ (k2 = k) := fun h => hks (h ▸ hk2)
        rw [if_neg hne]
      · have hA2 : A ∈ ks := by
          rcases List.mem_cons.mp hA with h | h
          · exact absurd h.symm hk
          · exact h
        simp only [insertGroup, if_neg hk]
        rw [ih (List.nodup_cons.mp hnd).2 hA2]

theorem insertGroup_map_not_mem (A : String) (c : Connection)
    (F : String → List Connection) (keys : List String) (hA : A ∉ keys) :
    insertGroup A c (keys.map (fun k => (k, F k))) =
      keys.map (fun k => (k, F k)) ++ [(A, [c])] := by
  induction keys with
  | nil => rfl
  | cons k ks ih =>
      have hk : ¬ (k = A) := fun h => hA (h ▸ List.mem_cons_self k ks)
      have hks : A ∉ ks := fun h => hA (List.mem_cons_of_mem _ h)
      simp only [List.map_cons, insertGroup, if_neg hk, ih hks, List.cons_append]

theorem gbs_step (components : List AWSComponent) (done : List Connection)
    (c : Connection) :
    groupBySourceStep components
      ((firstOccAux [] (resolvableFroms components done)).map
        (fun k => (k, done.filter (fun x => x.from_ = k)))) c =
    (firstOccAux [] (resolvableFroms components (done ++ [c]))).map
      (fun k => (k, (done ++ [c]).filter (fun x => x.from_ = k))) := by
  unfold groupBySourceStep
  cases hf : findComp components c.from_ with
  | none =>
      have hRF : resolvableFroms components (done ++ [c]) =
          resolvableFroms components done := by
        rw [resolvableFroms_append]
        have h1 : resolvableFroms components [c] = [] := by
          unfold resolvableFroms
          simp [hf]
        rw [h1, List.append_nil]
      rw [hRF]
      apply List.map_congr_left
      intro k hk
      have hkR : k ∈ resolvableFroms components done := by
        rcases (mem_firstOccAux k _ []).mp hk with h | h
        · cases h
        · exact h
      have hkS : (findComp components k).isSome = true :=
        ((mem_resolvableFroms components done k).mp hkR).1
      have hne : ¬ (c.from_ = k) := by
        intro h
        rw [← h, hf] at hkS
        cases hkS
      rw [List.filter_append]
      have h2 : [c].filter (fun x => x.from_ = k) = [] := by simp [hne]
      rw [h2, List.append_nil]
  | some fc =>
      dsimp only
      have hid : fc.id = c.from_ := findComp_id hf
      rw [hid]
      have hS : (findComp components c.from_).isSome = true := by rw [hf]; rfl
      have hRF : resolvableFroms components (done ++ [c]) =
          resolvableFroms components done ++ [c.from_] := by
        rw [resolvableFroms_append]
        have h1 : resolvableFroms components [c] = [c.from_] := by
          unfold resolvableFroms
          simp [hf]
        rw [h1]
      rw [hRF, firstOccAux_append]
      by_cases hmem : c.from_ ∈ resolvableFroms components done
      · have hmem2 : c.from_ ∈ firstOccAux [] (resolvableFroms components done) :=
          (mem_firstOccAux _ _ _).mpr (Or.inr hmem)
        rw [show firstOccAux (firstOccAux [] (resolvableFroms components done))
            [c.from_] = firstOccAux [] (resolvableFroms components done) from by
          rw [firstOccAux, if_pos hmem2]; rfl]
        rw [insertGroup_map_mem _ _ _ _ (firstOccAux_nodup _ _ List.nodup_nil) hmem2]
        apply List.map_congr_left
        intro k hk
        rw [List.filter_append]
        by_cases hkA : k = c.from_
        · subst hkA
          rw [if_pos rfl]
          have h3 : [c].filter (fun x => x.from_ = c.from_) = [c] := by simp
          rw [h3]
        · rw [if_neg hkA]
          have hne : ¬ (c.from_ = k) := fun h => hkA h.symm
          have h3 : [c].filter (fun x => x.from_ = k) = [] := by simp [hne]
          rw [h3, List.append_nil]
      · have hmem2 : c.from_ ∉ firstOccAux [] (resolvableFroms components done) := by
          intro h
          rcases (mem_firstOccAux _ _ _).mp h with h | h
          · cases h
          · exact hmem h
        rw [show firstOccAux (firstOccAux [] (resolvableFroms components done))
            [c.from_] =
            firstOccAux [] (resolvableFroms components done) ++ [c.from_] from by
          rw [firstOccAux, if_neg hmem2]; rfl]
        rw [insertGroup_map_not_mem _ _ _ _ hmem2, List.map_append]
        congr 1
        · apply List.map_congr_left
          intro k hk
          have hkR : k ∈ resolvableFroms components done := by
            rcases (mem_firstOccAux k _ []).mp hk with h | h
            · cases h
            · exact h
          have hne : ¬ (c.from_ = k) := fun h => hmem (h ▸ hkR)
          rw [List.filter_append]
          have h3 : [c].filter (fun x => x.from_ = k) = [] := by simp [hne]
          rw [h3, List.append_nil]
        · rw [List.map_singleton, List.filter_append,
            filter_from_eq_nil components done c.from_ hS hmem, List.nil_append]
          have h3 : [c].filter (fun x => x.from_ = c.from_) = [c] := by simp
          rw [h3]

/-- The grouping map of `generateExecutionRolePolicies`, characterised: the
keys are the resolvable source ids in first-occurrence order, each carrying
every connection with that literal source id. -/
theorem connectionsBySource_char (components : List AWSComponent)
    (es : List Connection) :
    connectionsBySource components es =
      (firstOccAux [] (resolvableFroms components es)).map
        (fun k => (k, es.filter (fun x => x.from_ = k))) := by
  unfold connectionsBySource
  have H : ∀ (rem done : List Connection),
      rem.foldl (groupBySourceStep components)
        ((firstOccAux [] (resolvableFroms components done)).map
          (fun k => (k, done.filter (fun x => x.from_ = k)))) =
      (firstOccAux [] (resolvableFroms components (done ++ rem))).map
        (fun k => (k, (done ++ rem).filter (fun x => x.from_ = k))) := by
    intro rem
    induction rem with
    | nil =>
        intro done
        rw [List.foldl_nil, List.append_nil]
    | cons c rest ih =>
        intro done
        rw [List.foldl_cons, gbs_step, ih (done ++ [c])]
        rw [← List.append_cons]
  exact H es []

theorem foldl_append_eq_flatten {α β : Type} (f : α → List β) (l : List α) :
    ∀ init : List β,
      l.foldl (fun acc x => acc ++ f x) init = init ++ (l.map f).flatten := by
  induction l with
  | nil => intro init; simp
  | cons x xs ih =>
      intro init
      rw [List.foldl_cons, ih, List.map_cons, List.flatten_cons, List.append_assoc]

theorem consolidatedPoliciesForSource_nil (components : List AWSComponent)
    (sid : String) :
    consolidatedPoliciesForSource components sid [] = [] := by
  unfold consolidatedPoliciesForSource
  cases findComp components sid <;> rfl

theorem consolidatedPoliciesForSource_skip (components : List AWSComponent)
    (sid : String) (l1 l2 : List Connection) (e : Connection)
    (h : findComp components e.to_ = none) :
    consolidatedPoliciesForSource components sid (l1 ++ e :: l2) =
      consolidatedPoliciesForSource components sid (l1 ++ l2) := by
  unfold consolidatedPoliciesForSource
  cases findComp components sid with
  | none => rfl
  | some sc =>
      have h2 := foldl_skip (policiesByTargetTypeStep components sc) e
        (fun acc => policiesByTargetTypeStep_skip components sc acc e h) l1 l2 []
      exact congrArg
        (fun groups => groups.foldl
          (fun acc g =>
            if g.2.1.length > 0 then
              match generateConsolidatedExecutionRolePolicy g.2.1 sc g.2.2 g.1 with
              | some policy => acc ++ [policy]
              | none => acc
            else acc)
          []) h2

/-- Phase C, characterised: one batch of consolidated policies per
resolvable source id in first-occurrence order. -/
theorem generateExecutionRolePolicies_char (components : List AWSComponent)
    (es : List Connection) :
    generateExecutionRolePolicies components es =
      ((firstOccAux [] (resolvableFroms components es)).map
        (fun k => consolidatedPoliciesForSource components k
          (es.filter (fun x => x.from_ = k)))).flatten := by
  unfold generateExecutionRolePolicies
  rw [connectionsBySource_char]
  have h1 := foldl_append_eq_flatten
    (fun g : String × List Connection =>
      consolidatedPoliciesForSource components g.1 g.2)
    ((firstOccAux [] (resolvableFroms components es)).map
      (fun k => (k, es.filter (fun x => x.from_ = k)))) []
  rw [List.nil_append] at h1
  rw [h1, List.map_map]
  rfl

theorem ERP_from_missing (components : List AWSComponent)
    (es1 es2 : List Connection) (e : Connection)
    (h : findComp components e.from_ = none) :
    generateExecutionRolePolicies components (es1 ++ e :: es2) =
      generateExecutionRolePolicies components (es1 ++ es2) := by
  rw [generateExecutionRolePolicies_char, generateExecutionRolePolicies_char]
  have hRF : resolvableFroms components (es1 ++ e :: es2) =
      resolvableFroms components (es1 ++ es2) := by
    rw [show es1 ++ e :: es2 = es1 ++ [e] ++ es2 from by
      rw [List.append_assoc]; rfl]
    rw [resolvableFroms_append, resolvableFroms_append, resolvableFroms_append]
    have h1 : resolvableFroms components [e] = [] := by
      unfold resolvableFroms
      simp [h]
    rw [h1, List.append_nil]
  rw [hRF]
  congr 1
  apply List.map_congr_left
  intro k hk
  have hkR : k ∈ resolvableFroms components (es1 ++ es2) := by
    rcases (mem_firstOccAux k _ []).mp hk with h2 | h2
    · cases h2
    · exact h2
  have hkS : (findComp components k).isSome = true :=
    ((mem_resolvableFroms components _ k).mp hkR).1
  have hne : ¬ (e.from_ = k) := by
    intro h2
    rw [← h2, h] at hkS
    cases hkS
  have hfil : (es1 ++ e :: es2).filter (fun x => x.from_ = k) =
      (es1 ++ es2).filter (fun x => x.from_ = k) := by
    rw [List.filter_append, List.filter_cons, List.filter_append]
    simp [hne]
  rw [hfil]

theorem ERP_to_missing (components : List AWSComponent)
    (es1 es2 : List Connection) (e : Connection)
    (h : findComp components e.to_ = none) :
    (generateExecutionRolePolicies components (es1 ++ e :: es2)).Perm
      (generateExecutionRolePolicies components (es1 ++ es2)) := by
  cases hf : findComp components e.from_ with
  | none =>
      rw [ERP_from_missing components es1 es2 e hf]
  | some fc =>
      rw [generateExecutionRolePolicies_char, generateExecutionRolePolicies_char]
      have hg : ∀ k, consolidatedPoliciesForSource components k
            ((es1 ++ e :: es2).filter (fun x => x.from_ = k)) =
          consolidatedPoliciesForSource components k
            ((es1 ++ es2).filter (fun x => x.from_ = k)) := by
        intro k
        by_cases hk : e.from_ = k
        · have hfil : (es1 ++ e :: es2).filter (fun x => x.from_ = k) =
              es1.filter (fun x => x.from_ = k) ++
                e :: es2.filter (fun x => x.from_ = k) := by
            rw [List.filter_append, List.filter_cons]
            simp [hk]
          have hfil2 : (es1 ++ es2).filter (fun x => x.from_ = k) =
              es1.filter (fun x => x.from_ = k) ++ es2.filter (fun x => x.from_ = k) :=
            List.filter_append es1 es2
          rw [hfil, hfil2]
          exact consolidatedPoliciesForSource_skip components k _ _ e h
        · have hfil : (es1 ++ e :: es2).filter (fun x => x.from_ = k) =
              (es1 ++ es2).filter (fun x => x.from_ = k) := by
            rw [List.filter_append, List.filter_cons, List.filter_append]
            simp [hk]
          rw [hfil]
      have hmapW : ((firstOccAux [] (resolvableFroms components (es1 ++ e :: es2))).map
            (fun k => consolidatedPoliciesForSource components k
              ((es1 ++ e :: es2).filter (fun x => x.from_ = k)))) =
          ((firstOccAux [] (resolvableFroms components (es1 ++ e :: es2))).map
            (fun k => consolidatedPoliciesForSource components k
              ((es1 ++ es2).filter (fun x => x.from_ = k)))) :=
        List.map_congr_left (fun k _ => hg k)
      rw [hmapW]
      have hRF : resolvableFroms components (es1 ++ e :: es2) =
          resolvableFroms components es1 ++ [e.from_] ++
            resolvableFroms components es2 := by
        rw [show es1 ++ e :: es2 = es1 ++ [e] ++ es2 from by
          rw [List.append_assoc]; rfl]
        rw [resolvableFroms_append, resolvableFroms_append]
        have h1 : resolvableFroms components [e] = [e.from_] := by
          unfold resolvableFroms
          simp [hf]
        rw [h1]
      have hRFO : resolvableFroms components (es1 ++ es2) =
          resolvableFroms components es1 ++ resolvableFroms components es2 :=
        resolvableFroms_append components es1 es2
      rw [hRF, hRFO, firstOccAux_append, firstOccAux_append, firstOccAux_append]
      by_cases hA1 : e.from_ ∈ firstOccAux [] (resolvableFroms components es1)
      · rw [show firstOccAux (firstOccAux [] (resolvableFroms components es1))
            [e.from_] = firstOccAux [] (resolvableFroms components es1) from by
          rw [firstOccAux, if_pos hA1]; rfl]
      · rw [show firstOccAux (firstOccAux [] (resolvableFroms components es1))
            [e.from_] =
            firstOccAux [] (resolvableFroms components es1) ++ [e.from_] from by
          rw [firstOccAux, if_neg hA1]; rfl]
        by_cases hA2 : e.from_ ∈ resolvableFroms components es2
        · exact ((firstOccAux_insert_mem e.from_
            (firstOccAux [] (resolvableFroms components es1))
            (resolvableFroms components es2) hA1 hA2).map _).flatten
        · have hperm := ((firstOccAux_insert_not_mem e.from_
            (firstOccAux [] (resolvableFroms components es1))
            (resolvableFroms components es2) hA2).map
            (fun k => consolidatedPoliciesForSource components k
              ((es1 ++ es2).filter (fun x => x.from_ = k)))).flatten
          refine hperm.trans ?_
          rw [List.map_append, List.flatten_append]
          have hS : (findComp components e.from_).isSome = true := by
            rw [hf]; rfl
          have hA1L : e.from_ ∉ resolvableFroms components es1 := fun hmem =>
            hA1 ((mem_firstOccAux e.from_ (resolvableFroms components es1) []).mpr
              (Or.inr hmem))
          have hf1 : es1.filter (fun x => x.from_ = e.from_) = [] :=
            filter_from_eq_nil components es1 e.from_ hS hA1L
          have hf2 : es2.filter (fun x => x.from_ = e.from_) = [] :=
            filter_from_eq_nil components es2 e.from_ hS hA2
          have hlast : consolidatedPoliciesForSource components e.from_
              ((es1 ++ es2).filter (fun x => x.from_ = e.from_)) = [] := by
            rw [List.filter_append, hf1, hf2]
            exact consolidatedPoliciesForSource_nil components e.from_
          have hsing : (List.map
              (fun k => consolidatedPoliciesForSource components k
                ((es1 ++ es2).filter (fun x => x.from_ = k))) [e.from_]).flatten
              = [] := by
            simp only [List.map_singleton]
            rw [hlast]
            rfl
          rw [hsing, List.append_nil]

/-- C6 counterexample: a dangling edge is not output-invisible.  With the
dangling edge `A→X` present, source `A` is entered into the grouping map
first, so the consolidated policies come out `[a, b]`; without it they come
out `[b, a]` — the two outputs differ (their name sequences differ at the
head), contradicting the claimed equality for the consolidated phase. -/
theorem C6_counterexample :
    c6edgesW = c6dangling :: c6edgesO ∧
    findComp c6comps c6dangling.to_ = none ∧
    (generateExecutionRolePolicies c6comps c6edgesW).map (fun p => p.name) =
      ["a_Lambda_S3_access", "b_Lambda_S3_access"] ∧
    (generateExecutionRolePolicies c6comps c6edgesO).map (fun p => p.name) =
      ["b_Lambda_S3_access", "a_Lambda_S3_access"] ∧
    ("a_Lambda_S3_access" : String) ≠ "b_Lambda_S3_access" :=
  ⟨rfl, rfl, rfl, rfl, by decide⟩

/-- C6 (amended): an edge with an unresolvable endpoint is silently
skipped and never raises, but it is invisible to the *output* only up to
the following caveat.  Execution roles, resource-based policies and the
trigger wiring are exactly equal to the run without the edge.  The
consolidated execution-role phase emits no policy for the edge: its output
is exactly equal when the *source* id is unresolvable, and is a
permutation of the run without the edge when only the *target* id is
unresolvable (the dangling edge may still register its source earlier in
the grouping map and so shift the order of whole per-source batches). -/
theorem C6_dangling_edges :
    (∀ (components : List AWSComponent) (es1 es2 : List Connection)
      (e : Connection) (r : List String),
      findComp components e.from_ = none ∨ findComp components e.to_ = none →
      generateExecutionRoles components (es1 ++ e :: es2) r =
          generateExecutionRoles components (es1 ++ es2) r ∧
        generateResourceBasedPolicies components (es1 ++ e :: es2) =
          generateResourceBasedPolicies components (es1 ++ es2) ∧
        triggerResources components (es1 ++ e :: es2) =
          triggerResources components (es1 ++ es2)) ∧
    (∀ (components : List AWSComponent) (es1 es2 : List Connection)
      (e : Connection),
      findComp components e.from_ = none →
      generateExecutionRolePolicies components (es1 ++ e :: es2) =
        generateExecutionRolePolicies components (es1 ++ es2)) ∧
    (∀ (components : List AWSComponent) (es1 es2 : List Connection)
      (e : Connection),
      findComp components e.to_ = none →
      (generateExecutionRolePolicies components (es1 ++ e :: es2)).Perm
        (generateExecutionRolePolicies components (es1 ++ es2))) :=
  ⟨fun components es1 es2 e r h =>
    ⟨generateExecutionRoles_skip components es1 es2 e r h,
     generateResourceBasedPolicies_skip components es1 es2 e h,
     triggerResources_skip components es1 es2 e h⟩,
   fun components es1 es2 e h => ERP_from_missing components es1 es2 e h,
   fun components es1 es2 e h => ERP_to_missing components es1 es2 e h⟩

theorem C6_dangling_edges_witness :
    (generateExecutionRoles c6comps ([] ++ c6dangling :: c6edgesO) [] =
        generateExecutionRoles c6comps ([] ++ c6edgesO) []) ∧
    (generateExecutionRolePolicies c6comps ([] ++ c6dangling :: c6edgesO)).Perm
      (generateExecutionRolePolicies c6comps ([] ++ c6edgesO)) :=
  ⟨(C6_dangling_edges.1 c6comps [] c6edgesO c6dangling [] (Or.inr rfl)).1,
   C6_dangling_edges.2.2 c6comps [] c6edgesO c6dangling rfl⟩

end Arch
